import Mathlib

/-!
Verification of the dragonbricks natural-language command parser and path
preview service.

The Python modules under backend/app/services/parser are shallowly embedded:
strings are lists of characters, Python floats appearing in the parser are
rationals, and the geometry of the preview service is over the reals.
Definitions follow the source code function by function; the names of the
Python functions are kept wherever Lean permits.
-/

set_option maxHeartbeats 4000000

namespace DragonBricks

/-- Python strings are modelled as lists of characters. -/
abbrev Str := List Char

/-- Shorthand to turn a Lean string literal into the model type. -/
def str (s : String) : Str := s.data

/-- Python str.lower, restricted to the ASCII inputs the parser receives. -/
def pyLower (s : Str) : Str := s.map Char.toLower

/-! ### fuzzy_match.py -/

/-- Reference recursive edit distance (insertion, deletion, substitution all
cost 1); used as the specification the dynamic program is proved against. -/
def levR : Str → Str → Nat
  | [], b => b.length
  | x :: xs, [] => (x :: xs).length
  | x :: xs, y :: ys =>
    min (levR xs ys + (if x = y then 0 else 1))
      (min (levR (x :: xs) ys + 1) (levR xs (y :: ys) + 1))
termination_by a b => a.length + b.length

/-- Inner loop of levenshtein_distance: given the remaining characters of b,
the remaining entries of previous_row (headed by previous_row[j]) and the last
entry appended to current_row, produce the rest of current_row.  Mirrors the
j-loop of the Python source. -/
def levRow (c1 : Char) : Str → List Nat → Nat → List Nat
  | [], _, _ => []
  | _ :: _, [], _ => []
  | c2 :: bs, pj :: prest, last =>
    let insertions := prest.headD 0 + 1
    let deletions := last + 1
    let substitutions := pj + (if c1 = c2 then 0 else 1)
    let v := min insertions (min deletions substitutions)
    v :: levRow c1 bs prest v

/-- Outer loop of levenshtein_distance over the characters of a, carrying the
row index i and previous_row.  Mirrors the i-loop of the Python source. -/
def levLoop (b : Str) : Str → Nat → List Nat → List Nat
  | [], _, prev => prev
  | c1 :: as, i, prev => levLoop b as (i + 1) ((i + 1) :: levRow c1 b prev (i + 1))

/-- Body of levenshtein_distance after the argument swap: the len(b) == 0
early return followed by the dynamic program, returning previous_row[-1]. -/
def levCore (a b : Str) : Nat :=
  if b.length = 0 then a.length
  else (levLoop b a 0 (List.range (b.length + 1))).getLast?.getD 0

/-- fuzzy_match.levenshtein_distance.  The source first swaps the arguments
when len(a) < len(b) via a self call (which then takes the other branch), then
runs the row dynamic program. -/
def levenshtein_distance (a b : Str) : Nat :=
  if a.length < b.length then levCore b a else levCore a b

/-- Specification of a DP row: starting from accumulated reversed prefixes
ra (of a) and rb (of b), the row entry for each further character of b. -/
def rowFor (ra rb : Str) : Str → List Nat
  | [] => [levR ra rb]
  | y :: ys => levR ra rb :: rowFor ra (y :: rb) ys

/-- One step of find_best_match: the loop body over a single option. -/
def fbmStep (input_lower : Str) (max_distance : Nat)
    (st : Option (Str × Nat)) (opt : Str) : Option (Str × Nat) :=
  let d := levenshtein_distance input_lower (pyLower opt)
  match st with
  | none => if d ≤ max_distance then some (opt, d) else st
  | some (_, best_distance) =>
    if d < best_distance ∧ d ≤ max_distance then some (opt, d) else st

/-- fuzzy_match.find_best_match: fold the loop body over the options, starting
from no best match (best_distance = infinity, so the first option within
max_distance is always taken). -/
def find_best_match (input : Str) (options : List Str) (max_distance : Nat) :
    Option (Str × Nat) :=
  options.foldl (fbmStep (pyLower input) max_distance) none

/-- Exact value of the Python floats flowing through the parser: a signed
numerator over a positive power-of-ten denominator, closed under the
multiplications and negations the parser performs.  Structural equality
coincides with float equality on the values the tokenizer constructs. -/
structure PyFloat where
  num : Int
  den : Nat
deriving DecidableEq, Repr

/-- Float literal of an integer. -/
def pyF (n : Int) : PyFloat := { num := n, den := 1 }

/-- Multiplication by a natural conversion factor. -/
def pyMulN (q : PyFloat) (c : Nat) : PyFloat := { q with num := q.num * c }

/-- Negation. -/
def pyNeg (q : PyFloat) : PyFloat := { q with num := -q.num }

/-- Comparison with 0.0. -/
def pyIsZero (q : PyFloat) : Bool := q.num = 0

/-- Comparison 0 < q (the denominators constructed are positive). -/
def pyPos (q : PyFloat) : Bool := 0 < q.num

/-- Python int() applied to a float: truncation toward zero. -/
def pyInt (q : PyFloat) : Int := Int.tdiv q.num q.den

/-- Python x or y where x is an optional number (None and 0 are falsy). -/
def pyOrQ (o : Option PyFloat) (dflt : PyFloat) : PyFloat :=
  match o with
  | some q => if pyIsZero q then dflt else q
  | none => dflt

/-- Python truthiness of an optional number. -/
def qTruthy (o : Option PyFloat) : Bool :=
  match o with
  | some q => !pyIsZero q
  | none => false

/-! ### patterns.py -/

def MOVE_VERBS : List Str :=
  [str "move", str "go", str "drive", str "travel", str "advance", str "proceed"]

def FORWARD_WORDS : List Str :=
  [str "forward", str "forwards", str "ahead", str "straight", str "front"]

def BACKWARD_WORDS : List Str :=
  [str "backward", str "backwards", str "back", str "reverse", str "behind"]

def TURN_VERBS : List Str :=
  [str "turn", str "rotate", str "spin", str "pivot", str "swing"]

def LEFT_WORDS : List Str := [str "left", str "counterclockwise", str "ccw"]

def RIGHT_WORDS : List Str := [str "right", str "clockwise", str "cw"]

def WAIT_VERBS : List Str :=
  [str "wait", str "pause", str "delay", str "sleep", str "hold"]

def RUN_VERBS : List Str :=
  [str "run", str "spin", str "rotate", str "move", str "activate", str "start"]

def STOP_VERBS : List Str :=
  [str "stop", str "halt", str "brake", str "freeze", str "end"]

def SET_VERBS : List Str :=
  [str "set", str "change", str "configure", str "adjust", str "use", str "make"]

def MOTOR_WORDS : List Str :=
  [str "motor", str "arm", str "claw", str "gripper", str "lift", str "attachment",
    str "grabber", str "lever"]

def ARC_VERBS : List Str := [str "arc", str "curve", str "sweep", str "bend"]

def HOLD_WORDS : List Str := [str "hold", str "lock", str "maintain", str "keep"]

def BEEP_VERBS : List Str :=
  [str "beep", str "sound", str "play", str "tone", str "buzz"]

def DISPLAY_VERBS : List Str :=
  [str "display", str "show", str "print", str "write", str "draw"]

def LIGHT_VERBS : List Str :=
  [str "light", str "led", str "illuminate", str "glow"]

def HUB_WORDS : List Str := [str "hub", str "prime", str "spike", str "brick"]

def ON_WORDS : List Str := [str "on", str "enable", str "activate"]

def OFF_WORDS : List Str := [str "off", str "disable", str "deactivate"]

def HEADING_WORDS : List Str :=
  [str "heading", str "direction", str "orientation", str "angle", str "yaw"]

def RESET_WORDS : List Str :=
  [str "reset", str "zero", str "clear", str "calibrate"]

def REPEAT_VERBS : List Str := [str "repeat", str "loop", str "do"]

def TIMES_WORDS : List Str := [str "times", str "iterations", str "loops"]

def DEFINE_VERBS : List Str :=
  [str "define", str "create", str "make", str "build"]

def MISSION_WORDS : List Str :=
  [str "mission", str "routine", str "program", str "task"]

def CALL_VERBS : List Str :=
  [str "call", str "execute", str "start", str "begin", str "launch"]

def SENSOR_WORDS : List Str :=
  [str "sensor", str "light", str "color", str "distance", str "ultrasonic",
    str "force", str "gyro"]

def UNTIL_WORDS : List Str := [str "until", str "till", str "when"]

def WHILE_WORDS : List Str := [str "while", str "during", str "as"]

def CONDITION_WORDS : List Str :=
  [str "sees", str "detects", str "reads", str "measures", str "is"]

def COMPARISON_WORDS : List Str :=
  [str "greater", str "less", str "more", str "above", str "below",
    str "equals", str "equal"]

def LINE_WORDS : List Str := [str "line", str "edge", str "border"]

def FOLLOW_VERBS : List Str := [str "follow", str "track", str "trace"]

def PARALLEL_WORDS : List Str :=
  [str "simultaneously", str "together", str "parallel", str "concurrently",
    str "while"]

def PRECISE_WORDS : List Str :=
  [str "precisely", str "exactly", str "accurate", str "carefully", str "gyro"]

def IF_WORDS : List Str := [str "if", str "when"]

def THEN_WORDS : List Str := [str "then"]

def ELSE_WORDS : List Str := [str "else", str "otherwise"]

/-- patterns.UNIT_CONVERSIONS as an association list in insertion order. -/
def UNIT_CONVERSIONS : List (Str × Nat) :=
  [(str "mm", 1), (str "millimeter", 1), (str "millimeters", 1),
   (str "millimetre", 1), (str "millimetres", 1),
   (str "cm", 10), (str "centimeter", 10), (str "centimeters", 10),
   (str "centimetre", 10), (str "centimetres", 10),
   (str "m", 1000), (str "meter", 1000), (str "meters", 1000),
   (str "metre", 1000), (str "metres", 1000)]

/-- patterns.TIME_CONVERSIONS as an association list in insertion order. -/
def TIME_CONVERSIONS : List (Str × Nat) :=
  [(str "ms", 1), (str "millisecond", 1), (str "milliseconds", 1),
   (str "s", 1000), (str "sec", 1000), (str "second", 1000), (str "seconds", 1000),
   (str "min", 60000), (str "minute", 60000), (str "minutes", 60000)]

def ANGLE_UNITS : List Str := [str "degree", str "degrees", str "deg"]

def COLORS : List Str :=
  [str "red", str "orange", str "yellow", str "green", str "cyan", str "blue",
   str "violet", str "magenta", str "white", str "gray", str "grey",
   str "black", str "none"]

def SPEED_WORDS : List Str :=
  [str "speed", str "velocity", str "rate", str "fast", str "slow",
   str "quickly", str "slowly"]

def FILLER_WORDS : List Str :=
  [str "for", str "to", str "the", str "a", str "an", str "of", str "by",
   str "at", str "in", str "on", str "and", str "then"]

def VERB_BLACKLIST : List Str :=
  [str "speed", str "slow", str "fast", str "quick", str "rate"]

def ALL_VERBS : List Str :=
  MOVE_VERBS ++ TURN_VERBS ++ WAIT_VERBS ++ RUN_VERBS ++ STOP_VERBS ++
    SET_VERBS ++ FOLLOW_VERBS ++ CALL_VERBS

def ALL_DIRECTIONS : List Str :=
  FORWARD_WORDS ++ BACKWARD_WORDS ++ LEFT_WORDS ++ RIGHT_WORDS

def ALL_UNITS : List Str :=
  UNIT_CONVERSIONS.map Prod.fst ++ TIME_CONVERSIONS.map Prod.fst ++ ANGLE_UNITS

/-- Python dict.get(key, default) on an association list. -/
def dictGet (d : List (Str × Nat)) (key : Str) (default : Nat) : Nat :=
  match d.find? (fun kv => kv.1 = key) with
  | some kv => kv.2
  | none => default

/-! ### tokenizer.py -/

/-- Token types; the source represents them as string literals, here an
inductive type.  Constructor names follow the source strings except where a
Lean keyword forces a variant (rpt = repeat, cIf/cThen/cElse = if/then/else,
whl = while, untl = until). -/
inductive TokType where
  | verb | direction | number | unit | color | motor | speed | word | unknown
  | rpt | times | define | mission | sensor | condition | comparison
  | untl | whl | parallel | precise | cIf | cThen | cElse | line | follow
  | call | arc | beep | display | reset | hold | brake | heading
  | von | voff | hub | light
deriving DecidableEq, Repr

/-- tokenizer.Token. -/
structure Token where
  type : TokType
  value : Str
  normalized : Option Str := none
  numeric_value : Option PyFloat := none
deriving DecidableEq, Repr

/-- tokenizer.normalize_comparison. -/
def normalize_comparison (comp : Str) : Str :=
  if comp = str "greater" ∨ comp = str "more" ∨ comp = str "above" then str ">"
  else if comp = str "less" ∨ comp = str "below" then str "<"
  else if comp = str "equals" ∨ comp = str "equal" then str "=="
  else comp

/-- tokenizer.normalize_direction. -/
def normalize_direction (direction : Str) : Str :=
  if direction ∈ FORWARD_WORDS then str "forward"
  else if direction ∈ BACKWARD_WORDS then str "backward"
  else if direction ∈ LEFT_WORDS then str "left"
  else if direction ∈ RIGHT_WORDS then str "right"
  else direction

/-- Tail of classify_word: the unit and color fuzzy fallbacks and the final
generic word token.  In the source these two find_best_match calls sit
outside the length-4 guard, so they run for words of any length. -/
def classifyUnitColor (word : Str) : Token :=
  match find_best_match word ALL_UNITS 2 with
  | some (um, _) => { type := .unit, value := word, normalized := some um }
  | none =>
    match find_best_match word COLORS 2 with
    | some (cm, _) => { type := .color, value := word, normalized := some cm }
    | none => { type := .word, value := word }

/-- Fuzzy-matching section of classify_word: the guarded verb and direction
fuzzy matches followed by classifyUnitColor. -/
def classifyFuzzy (word : Str) : Token :=
  if 4 ≤ word.length ∧ word ∉ VERB_BLACKLIST then
    match find_best_match word ALL_VERBS 1 with
    | some (vm, _) =>
      if vm.headD ' ' = word.headD ' ' then
        { type := .verb, value := word, normalized := some vm }
      else
        match find_best_match word ALL_DIRECTIONS 2 with
        | some (dm, _) =>
          { type := .direction, value := word,
            normalized := some (normalize_direction dm) }
        | none => classifyUnitColor word
    | none =>
      match find_best_match word ALL_DIRECTIONS 2 with
      | some (dm, _) =>
        { type := .direction, value := word,
          normalized := some (normalize_direction dm) }
      | none => classifyUnitColor word
  else classifyUnitColor word

/-- tokenizer.classify_word: the exact-lexicon if chain, then classifyFuzzy. -/
def classify_word (word : Str) : Token :=
  if word ∈ FILLER_WORDS ∧ word ≠ str "and" then { type := .word, value := word }
  else if word ∈ REPEAT_VERBS then
    { type := .rpt, value := word, normalized := some (str "repeat") }
  else if word ∈ TIMES_WORDS then
    { type := .times, value := word, normalized := some (str "times") }
  else if word ∈ DEFINE_VERBS then
    { type := .define, value := word, normalized := some (str "define") }
  else if word ∈ MISSION_WORDS then
    { type := .mission, value := word, normalized := some (str "mission") }
  else if word ∈ SENSOR_WORDS then
    { type := .sensor, value := word, normalized := some word }
  else if word ∈ UNTIL_WORDS then
    { type := .untl, value := word, normalized := some (str "until") }
  else if word ∈ WHILE_WORDS then
    { type := .whl, value := word, normalized := some (str "while") }
  else if word ∈ CONDITION_WORDS then
    { type := .condition, value := word, normalized := some word }
  else if word ∈ COMPARISON_WORDS then
    { type := .comparison, value := word, normalized := some (normalize_comparison word) }
  else if word ∈ PARALLEL_WORDS then
    { type := .parallel, value := word, normalized := some (str "parallel") }
  else if word ∈ PRECISE_WORDS then
    { type := .precise, value := word, normalized := some (str "precise") }
  else if word ∈ IF_WORDS then
    { type := .cIf, value := word, normalized := some (str "if") }
  else if word ∈ THEN_WORDS then
    { type := .cThen, value := word, normalized := some (str "then") }
  else if word ∈ ELSE_WORDS then
    { type := .cElse, value := word, normalized := some (str "else") }
  else if word ∈ LINE_WORDS then
    { type := .line, value := word, normalized := some (str "line") }
  else if word ∈ FOLLOW_VERBS then
    { type := .follow, value := word, normalized := some (str "follow") }
  else if word ∈ CALL_VERBS then
    { type := .call, value := word, normalized := some (str "call") }
  else if word ∈ ARC_VERBS then
    { type := .arc, value := word, normalized := some (str "arc") }
  else if word ∈ BEEP_VERBS then
    { type := .beep, value := word, normalized := some (str "beep") }
  else if word ∈ DISPLAY_VERBS then
    { type := .display, value := word, normalized := some (str "display") }
  else if word ∈ RESET_WORDS then
    { type := .reset, value := word, normalized := some (str "reset") }
  else if word ∈ HOLD_WORDS then
    { type := .hold, value := word, normalized := some (str "hold") }
  else if word ∈ HEADING_WORDS then
    { type := .heading, value := word, normalized := some (str "heading") }
  else if word ∈ ON_WORDS then
    { type := .von, value := word, normalized := some (str "on") }
  else if word ∈ OFF_WORDS then
    { type := .voff, value := word, normalized := some (str "off") }
  else if word ∈ HUB_WORDS then
    { type := .hub, value := word, normalized := some (str "hub") }
  else if word ∈ LIGHT_VERBS then
    { type := .light, value := word, normalized := some (str "light") }
  else if word ∈ ALL_VERBS then
    { type := .verb, value := word, normalized := some word }
  else if word ∈ ALL_DIRECTIONS then
    { type := .direction, value := word, normalized := some (normalize_direction word) }
  else if word ∈ ALL_UNITS then
    { type := .unit, value := word, normalized := some word }
  else if word ∈ COLORS then
    { type := .color, value := word,
      normalized := some (if word = str "grey" then str "gray" else word) }
  else if word ∈ MOTOR_WORDS then
    { type := .motor, value := word, normalized := some word }
  else if word ∈ SPEED_WORDS then
    { type := .speed, value := word, normalized := some (str "speed") }
  else classifyFuzzy word

/-- Replacement of the punctuation class [,:;!?] by spaces (re.sub in
tokenize). -/
def depunct (s : Str) : Str :=
  s.map (fun c => if c = ',' ∨ c = ':' ∨ c = ';' ∨ c = '!' ∨ c = '?' then ' ' else c)

/-- Helper for pyWords: accumulate the current word (reversed) while walking
the characters. -/
def wordsAux : Str → Str → List Str
  | [], acc => if acc = [] then [] else [acc.reverse]
  | c :: cs, acc =>
    if c.isWhitespace then
      if acc = [] then wordsAux cs [] else acc.reverse :: wordsAux cs []
    else wordsAux cs (c :: acc)

/-- Python str.split() with no separator: split on whitespace runs, never
producing empty words (which also covers the source's filter on words). -/
def pyWords (s : Str) : List Str := wordsAux s []

/-- Value of a digit string (all characters digits). -/
def digitsToNat (ds : Str) : Nat :=
  ds.foldl (fun n c => 10 * n + (c.toNat - Char.toNat '0')) 0

/-- Body of parseFloat for an unsigned number string. -/
def parseFloatPos (s : Str) : PyFloat :=
  let ds := s.takeWhile Char.isDigit
  match s.dropWhile Char.isDigit with
  | '.' :: fs => { num := (digitsToNat (ds ++ fs) : Int), den := 10 ^ fs.length }
  | _ => { num := (digitsToNat ds : Int), den := 1 }

/-- Python float() applied to the strings matched by the number pattern
(optional sign, digits, optional fraction), as an exact value. -/
def parseFloat (s : Str) : PyFloat :=
  match s with
  | '-' :: r => pyNeg (parseFloatPos r)
  | r => parseFloatPos r

/-- Core of the anchored number pattern (-?[0-9]+(.[0-9]+)?)([a-z]*) used in
tokenize, after the optional sign: the number string and the attached unit
string.  The pattern is deterministic: digits are taken greedily and the
optional fraction either matches completely or the whole pattern fails. -/
def matchNumCore (sign rest : Str) : Option (Str × Str) :=
  let ds := rest.takeWhile Char.isDigit
  if ds = [] then none
  else
    match rest.dropWhile Char.isDigit with
    | '.' :: r2 =>
      let fs := r2.takeWhile Char.isDigit
      let r3 := r2.dropWhile Char.isDigit
      if fs = [] then none
      else if r3.all (fun c => 'a' ≤ c ∧ c ≤ 'z') then
        some (sign ++ ds ++ '.' :: fs, r3)
      else none
    | r2 =>
      if r2.all (fun c => 'a' ≤ c ∧ c ≤ 'z') then some (sign ++ ds, r2) else none

/-- Match of the anchored number pattern against a whole word: the optional
leading sign, then the core. -/
def matchNumWord (w : Str) : Option (Str × Str) :=
  match w with
  | '-' :: r => matchNumCore ['-'] r
  | r => matchNumCore [] r

/-- Per-word step of tokenize: a number word yields a number token plus a
classified unit token when a unit string is attached; any other word is
classified directly. -/
def wordTokens (word : Str) : List Token :=
  match matchNumWord word with
  | some (num_str, unit_str) =>
    { type := .number, value := num_str,
      numeric_value := some (parseFloat num_str) } ::
      (if unit_str = [] then [] else [classify_word unit_str])
  | none => [classify_word word]

/-- tokenizer.tokenize: lowercase, replace punctuation by spaces, split on
whitespace, and classify each word. -/
def tokenize (input : Str) : List Token :=
  ((pyWords (depunct (pyLower input))).map wordTokens).flatten

/-! ### String helpers used by parser.py -/

/-- Python str.strip(): remove leading and trailing whitespace. -/
def pyStrip (s : Str) : Str :=
  ((s.dropWhile Char.isWhitespace).reverse.dropWhile Char.isWhitespace).reverse

/-- Python str.upper, restricted to ASCII. -/
def pyUpper (s : Str) : Str := s.map Char.toUpper

/-- Index of the first occurrence of sep in s (Python str.find / the in
operator). -/
def findSeqIdx (sep : Str) : Str → Option Nat
  | [] => if sep = [] then some 0 else none
  | c :: cs =>
    if sep.isPrefixOf (c :: cs) then some 0 else (findSeqIdx sep cs).map (· + 1)

/-- Python sep in s. -/
def containsSeq (sep s : Str) : Bool := (findSeqIdx sep s).isSome

/-- Fuelled worker for splitOnSeq; one unit of fuel per separator occurrence
suffices since each occurrence consumes at least one character. -/
def splitSeqAux (sep : Str) : Nat → Str → List Str
  | 0, s => [s]
  | fuel + 1, s =>
    match findSeqIdx sep s with
    | none => [s]
    | some i => s.take i :: splitSeqAux sep fuel (s.drop (i + sep.length))

/-- Python s.split(sep) for a nonempty separator. -/
def splitOnSeq (sep s : Str) : List Str :=
  if sep = [] then [s] else splitSeqAux sep s.length s

/-- Python s.split(sep, 1): split at the first occurrence only. -/
def splitOnSeq1 (sep s : Str) : List Str :=
  match findSeqIdx sep s with
  | none => [s]
  | some i => [s.take i, s.drop (i + sep.length)]

/-- Fuelled worker for replaceSeq. -/
def replaceSeqAux (sep repl : Str) : Nat → Str → Str
  | 0, s => s
  | fuel + 1, s =>
    match findSeqIdx sep s with
    | none => s
    | some i => s.take i ++ repl ++ replaceSeqAux sep repl fuel (s.drop (i + sep.length))

/-- Python s.replace(sep, repl) for a nonempty separator. -/
def replaceSeq (sep repl s : Str) : Str :=
  if sep = [] then s else replaceSeqAux sep repl s.length s

/-- The source's newline-join idiom: backslash-n followed by four spaces
joined over split on newline, which replaces each newline by newline plus
four spaces. -/
def indent4 (s : Str) : Str :=
  s.foldr
    (fun c acc =>
      if c = '\n' then '\n' :: ' ' :: ' ' :: ' ' :: ' ' :: acc else c :: acc) []

/-- Python str(i) for an integer. -/
def intToStr (i : Int) : Str := (toString i).data

/-- Python x or y where x is an optional string (None and the empty string
are falsy). -/
def pyOrStr (o : Option Str) (dflt : Str) : Str :=
  match o with
  | some s => if s = [] then dflt else s
  | none => dflt

/-! ### parser.py data types -/

/-- Clarification type literals of parser.ClarificationRequest. -/
inductive ClarType where
  | distance | angle | duration
deriving DecidableEq, Repr

/-- parser.ClarificationRequest. -/
structure ClarificationRequest where
  field : Str
  message : Str
  type : ClarType
deriving DecidableEq, Repr

/-- parser.ParseResult. -/
structure ParseResult where
  success : Bool
  python_code : Option Str := none
  needs_clarification : Option ClarificationRequest := none
  error : Option Str := none
  confidence : ℚ := 0
  command_type : Option Str := none
  needs_llm : Bool := false
deriving DecidableEq, Repr

/-- parser.RobotConfig with its default field values. -/
structure RobotConfig where
  left_motor_port : Str := str "A"
  right_motor_port : Str := str "B"
  wheel_diameter : PyFloat := pyF 56
  axle_track : PyFloat := pyF 112
  speed : PyFloat := pyF 200
  acceleration : PyFloat := pyF 700
  turn_rate : PyFloat := pyF 150
  turn_acceleration : PyFloat := pyF 300
  motor_speed : PyFloat := pyF 200
  attachment1_port : Option Str := none
  attachment2_port : Option Str := none
  color_sensor_port : Option Str := none
  ultrasonic_port : Option Str := none
  force_port : Option Str := none
deriving DecidableEq, Repr

/-! ### parser.py helper functions -/

/-- parser.find_token_by_type. -/
def find_token_by_type (tokens : List Token) (t : TokType) : Option Token :=
  tokens.find? (fun tok => tok.type = t)

/-- parser.has_token_type. -/
def has_token_type (tokens : List Token) (t : TokType) : Bool :=
  tokens.any (fun tok => tok.type = t)

/-- parser.has_verb. -/
def has_verb (tokens : List Token) (verbs : List Str) : Bool :=
  tokens.any (fun t => t.type = .verb ∧ pyOrStr t.normalized t.value ∈ verbs)

/-- parser.get_numbers. -/
def get_numbers (tokens : List Token) : List Token :=
  tokens.filter (fun t => t.type = .number)

/-- Shared guard: direction token present whose normalized value (or empty
string) is outside the allowed list. -/
def dirOutside (direction : Option Token) (allowed : List Str) : Bool :=
  match direction with
  | some d => pyOrStr d.normalized [] ∉ allowed
  | none => false

/-- Construction of a ClarificationRequest. -/
def mkClar (f m : Str) (t : ClarType) : ClarificationRequest :=
  { field := f, message := m, type := t }

/-- Python t != other where other may be None (dataclass equality). -/
def tokNeq (t : Token) (o : Option Token) : Bool :=
  match o with
  | some d => t ≠ d
  | none => true

/-- Speed extraction shared by try_parse_move and try_parse_turn: with two
or more numbers and a speed word, the first number token at or after the
speed word; otherwise with two or more numbers and an at word, the first
number token at or after at that differs from the primary token. -/
def findSpeedValue (tokens : List Token) (numbers : List Token)
    (has_speed_word : Bool) (primary : Option Token) : Option PyFloat :=
  if 2 ≤ numbers.length ∧ has_speed_word then
    let swi := tokens.findIdx (fun t => t.type = TokType.speed)
    match (tokens.drop swi).find? (fun t => t.type = TokType.number) with
    | some t => t.numeric_value
    | none => none
  else if 2 ≤ numbers.length then
    match tokens.findIdx? (fun t => t.value = str "at") with
    | some ai =>
      match (tokens.drop ai).find? (fun t =>
          t.type = TokType.number && tokNeq t primary) with
      | some t => t.numeric_value
      | none => none
    | none => none
  else none

/-! ### parser.py recognizers -/

/-- parser.try_parse_move. -/
def try_parse_move (tokens : List Token) (config : RobotConfig) :
    Option ParseResult :=
  let has_move := has_verb tokens MOVE_VERBS
  let direction := find_token_by_type tokens .direction
  let unit := find_token_by_type tokens .unit
  if ¬has_move ∧ direction = none then none
  else if dirOutside direction [str "forward", str "backward"] then none
  else
    let numbers := get_numbers tokens
    let has_speed_word := has_token_type tokens .speed
    let distance_token : Option Token :=
      match unit with
      | some u =>
        let unit_index := tokens.findIdx (fun t => t = u)
        match ((tokens.take unit_index).filter
            (fun t => t.type = TokType.number)).getLast? with
        | some t => some t
        | none => numbers.head?
      | none => numbers.head?
    let speed_value := findSpeedValue tokens numbers has_speed_word distance_token
    match distance_token with
    | none =>
      some { success := false,
             needs_clarification := some (mkClar (str "distance")
               (str "How far should the robot move?") ClarType.distance),
             confidence := 7/10 }
    | some dt =>
      let distance0 := pyOrQ dt.numeric_value (pyF 0)
      let distance1 :=
        match unit with
        | some u =>
          pyMulN distance0 (dictGet UNIT_CONVERSIONS (pyOrStr u.normalized u.value) 1)
        | none => distance0
      let distance :=
        match direction with
        | some d =>
          if d.normalized = some (str "backward") then pyNeg distance1 else distance1
        | none => distance1
      let straight_speed := pyOrQ speed_value config.speed
      if qTruthy speed_value then
        some { success := true,
               python_code := some (str "robot.settings(straight_speed=" ++
                 intToStr (pyInt straight_speed) ++ str ")\nrobot.straight(" ++
                 intToStr (pyInt distance) ++ str ")"),
               confidence := 95/100, command_type := some (str "move") }
      else
        some { success := true,
               python_code := some (str "robot.straight(" ++
                 intToStr (pyInt distance) ++ str ")"),
               confidence := 95/100, command_type := some (str "move") }

/-- parser.try_parse_turn. -/
def try_parse_turn (tokens : List Token) (config : RobotConfig) :
    Option ParseResult :=
  let has_turn := has_verb tokens TURN_VERBS
  let direction := find_token_by_type tokens .direction
  if ¬has_turn ∧ direction = none then none
  else if dirOutside direction [str "left", str "right"] then none
  else
    let numbers := get_numbers tokens
    let has_speed_word := has_token_type tokens .speed
    let angle_token := numbers.head?
    let speed_value := findSpeedValue tokens numbers has_speed_word angle_token
    match angle_token with
    | none =>
      some { success := false,
             needs_clarification := some (mkClar (str "angle")
               (str "What angle should the robot turn?") ClarType.angle),
             confidence := 7/10 }
    | some ang =>
      let angle0 := pyOrQ ang.numeric_value (pyF 0)
      let angle :=
        match direction with
        | some d => if d.normalized = some (str "left") then pyNeg angle0 else angle0
        | none => angle0
      let turn_rate := pyOrQ speed_value config.turn_rate
      if qTruthy speed_value then
        some { success := true,
               python_code := some (str "robot.settings(turn_rate=" ++
                 intToStr (pyInt turn_rate) ++ str ")\nrobot.turn(" ++
                 intToStr (pyInt angle) ++ str ")"),
               confidence := 95/100, command_type := some (str "turn") }
      else
        some { success := true,
               python_code := some (str "robot.turn(" ++
                 intToStr (pyInt angle) ++ str ")"),
               confidence := 95/100, command_type := some (str "turn") }

/-- parser.try_parse_wait. -/
def try_parse_wait (tokens : List Token) : Option ParseResult :=
  if ¬has_verb tokens WAIT_VERBS then none
  else
    let number := find_token_by_type tokens .number
    let unit := find_token_by_type tokens .unit
    match number with
    | none =>
      some { success := false,
             needs_clarification := some (mkClar (str "duration")
               (str "How long should the robot wait?") ClarType.duration),
             confidence := 7/10 }
    | some n =>
      let duration0 := pyOrQ n.numeric_value (pyF 0)
      let duration :=
        match unit with
        | some u =>
          pyMulN duration0 (dictGet TIME_CONVERSIONS (pyOrStr u.normalized u.value) 1000)
        | none => pyMulN duration0 1000
      some { success := true,
             python_code := some (str "wait(" ++ intToStr (pyInt duration) ++ str ")"),
             confidence := 9/10, command_type := some (str "wait") }

/-- parser.try_parse_motor. -/
def try_parse_motor (tokens : List Token) (config : RobotConfig)
    (motor_names : List Str) : Option ParseResult :=
  if ¬has_verb tokens RUN_VERBS then none
  else if ¬has_token_type tokens .motor then none
  else
    let motor_token := find_token_by_type tokens .motor
    let motor_name :=
      match motor_token with
      | some t => t.value
      | none => str "motor"
    match find_token_by_type tokens .number with
    | none =>
      some { success := false,
             needs_clarification := some (mkClar (str "angle")
               (str "How many degrees should the " ++ motor_name ++
                 str " motor run?") ClarType.angle),
             confidence := 7/10 }
    | some n =>
      let angle := pyOrQ n.numeric_value (pyF 0)
      let speed := pyInt config.motor_speed
      some { success := true,
             python_code := some (motor_name ++ str ".run_angle(" ++
               intToStr speed ++ str ", " ++ intToStr (pyInt angle) ++ str ")"),
             confidence := 85/100, command_type := some (str "motor") }

/-- parser.try_parse_stop. -/
def try_parse_stop (tokens : List Token) (motor_names : List Str) :
    Option ParseResult :=
  if ¬has_verb tokens STOP_VERBS then none
  else
    match find_token_by_type tokens .motor with
    | some mt =>
      some { success := true,
             python_code := some (mt.value ++ str ".stop()"),
             confidence := 9/10, command_type := some (str "stop") }
    | none =>
      some { success := true,
             python_code := some (str "robot.stop()"),
             confidence := 85/100, command_type := some (str "stop") }

/-- parser.try_parse_set_speed. -/
def try_parse_set_speed (tokens : List Token) : Option ParseResult :=
  let has_set := has_verb tokens SET_VERBS
  let has_speed := has_token_type tokens .speed
  if ¬has_speed then none
  else if has_verb tokens MOVE_VERBS then none
  else
    let has_turn := has_verb tokens TURN_VERBS
    let has_direction := has_token_type tokens .direction
    if has_turn ∧ has_direction ∧ ¬has_set then none
    else
      match find_token_by_type tokens .number with
      | none =>
        some { success := false,
               needs_clarification := some (mkClar (str "speed")
               (str "What speed should be set? (mm/s)") ClarType.distance),
               confidence := 7/10 }
      | some n =>
        let speed_value := pyOrQ n.numeric_value (pyF 100)
        let has_turn_word := tokens.any
          (fun t => t.value ∈ [str "turn", str "turning", str "rotation"])
        if has_turn_word then
          some { success := true,
                 python_code := some (str "robot.settings(turn_rate=" ++
                   intToStr (pyInt speed_value) ++ str ")"),
                 confidence := 9/10, command_type := some (str "set_speed") }
        else
          some { success := true,
                 python_code := some (str "robot.settings(straight_speed=" ++
                   intToStr (pyInt speed_value) ++ str ")"),
                 confidence := 9/10, command_type := some (str "set_speed") }

/-- Action string extraction of try_parse_repeat: the text after the first
times-colon marker (searched case-insensitively) or after the first colon
(searched in the original string), stripped. -/
def repeatActionStr (input : Str) : Str :=
  match findSeqIdx (str "times:") (pyLower input) with
  | some i => pyStrip (input.drop (i + 6))
  | none =>
    match findSeqIdx (str "times :") (pyLower input) with
    | some i => pyStrip (input.drop (i + 7))
    | none =>
      match findSeqIdx (str ": ") input with
      | some i => pyStrip (input.drop (i + 2))
      | none =>
        match findSeqIdx (str ":") input with
        | some i => pyStrip (input.drop (i + 1))
        | none => []

/-- parser.try_parse_repeat.  The recursive call parse_command(action_str,
None, [], []) is supplied as the recur argument by the dispatcher. -/
def try_parse_repeat (recur : Str → ParseResult) (tokens : List Token)
    (input : Str) : Option ParseResult :=
  if ¬has_token_type tokens .rpt then none
  else
    match find_token_by_type tokens .number with
    | none =>
      some { success := false,
             needs_clarification := some (mkClar (str "count")
               (str "How many times should the action repeat?") ClarType.distance),
             confidence := 7/10, command_type := some (str "loop") }
    | some n =>
      let count := pyInt (pyOrQ n.numeric_value (pyF 1))
      let action_str := repeatActionStr input
      if action_str = [] then
        some { success := true,
               python_code := some (str "for i in range(" ++ intToStr count ++
                 str "):\n    # Add commands here\n    pass"),
               confidence := 7/10, command_type := some (str "loop") }
      else
        let action_result := recur action_str
        if action_result.success ∧ action_result.python_code.getD [] ≠ [] then
          some { success := true,
                 python_code := some (str "for i in range(" ++ intToStr count ++
                   str "):\n    " ++ indent4 (action_result.python_code.getD [])),
                 confidence := 9/10, command_type := some (str "loop") }
        else
          some { success := true,
                 python_code := some (str "for i in range(" ++ intToStr count ++
                   str "):\n    # " ++ action_str ++ str "\n    pass"),
                 confidence := 75/100, command_type := some (str "loop") }

/-- parser.try_parse_sensor_wait. -/
def try_parse_sensor_wait (tokens : List Token) : Option ParseResult :=
  let has_until := has_token_type tokens .untl
  let has_while := has_token_type tokens .whl
  let has_sensor := has_token_type tokens .sensor
  let has_color := has_token_type tokens .color
  if (¬has_until ∧ ¬has_while) ∨ (¬has_sensor ∧ ¬has_color) then none
  else
    let has_move := has_verb tokens MOVE_VERBS
    let direction := find_token_by_type tokens .direction
    let is_moving_command : Bool := has_move ||
      (match direction with
       | some d =>
         d.normalized = some (str "forward") || d.normalized = some (str "backward")
       | none => false)
    let sensor_token := find_token_by_type tokens .sensor
    let color_token := find_token_by_type tokens .color
    let comparison_token := find_token_by_type tokens .comparison
    let number_token := find_token_by_type tokens .number
    let drive_speed : Int :=
      match direction with
      | some d => if d.normalized = some (str "backward") then -200 else 200
      | none => 200
    match color_token with
    | some ct =>
      let color_name := pyUpper (pyOrStr ct.normalized [])
      if is_moving_command then
        some { success := true,
               python_code := some (str "# Drive until color detected\nrobot.drive(" ++
                 intToStr drive_speed ++
                 str ", 0)\nwhile color_sensor.color() != Color." ++ color_name ++
                 str ":\n    wait(10)\nrobot.stop()"),
               confidence := 9/10, command_type := some (str "sensor_move") }
      else
        some { success := true,
               python_code := some (str "while color_sensor.color() != Color." ++
                 color_name ++ str ":\n    wait(10)"),
               confidence := 85/100, command_type := some (str "sensor") }
    | none =>
      match sensor_token, number_token with
      | some st, some nt =>
        let sensor_name := pyOrStr st.normalized (str "sensor")
        let comparison :=
          match comparison_token with
          | some c => c.normalized.getD []
          | none => str ">"
        let value := pyInt (pyOrQ nt.numeric_value (pyF 50))
        let sv :=
          if sensor_name = str "light" ∨ sensor_name = str "color" then
            (str "color_sensor", str "reflection()")
          else if sensor_name = str "distance" ∨ sensor_name = str "ultrasonic" then
            (str "distance_sensor", str "distance()")
          else if sensor_name = str "force" then
            (str "force_sensor", str "force()")
          else if sensor_name = str "gyro" then
            (str "hub.imu", str "heading()")
          else (str "sensor", str "reflection()")
        let condition :=
          if has_while then comparison
          else if comparison = str ">" then str "<=" else str ">="
        if is_moving_command then
          some { success := true,
                 python_code := some (str "# Drive until sensor condition met\nrobot.drive(" ++
                   intToStr drive_speed ++ str ", 0)\nwhile " ++ sv.1 ++ str "." ++
                   sv.2 ++ str " " ++ condition ++ str " " ++ intToStr value ++
                   str ":\n    wait(10)\nrobot.stop()"),
                 confidence := 9/10, command_type := some (str "sensor_move") }
        else
          some { success := true,
                 python_code := some (str "while " ++ sv.1 ++ str "." ++ sv.2 ++
                   str " " ++ condition ++ str " " ++ intToStr value ++
                   str ":\n    wait(10)"),
                 confidence := 85/100, command_type := some (str "sensor") }
      | _, _ => none

/-- parser.try_parse_line_follow. -/
def try_parse_line_follow (tokens : List Token) : Option ParseResult :=
  let has_follow := has_token_type tokens .follow
  let has_line := has_token_type tokens .line
  if ¬has_follow ∨ ¬has_line then none
  else
    let has_until := has_token_type tokens .untl
    let number_token := find_token_by_type tokens .number
    let unit_token := find_token_by_type tokens .unit
    let distance : PyFloat :=
      match number_token with
      | some nt =>
        let d0 := pyOrQ nt.numeric_value (pyF 0)
        match unit_token with
        | some u =>
          pyMulN d0 (dictGet UNIT_CONVERSIONS (pyOrStr u.normalized u.value) 1)
        | none => d0
      | none => pyF 0
    let stop_condition :=
      if pyPos distance then
        str "if robot.distance() >= " ++ intToStr (pyInt distance) ++
          str ":\n        break"
      else if has_until then str "# Add stop condition"
      else []
    some { success := true,
           python_code := some (str "# Line following - adjust threshold and speed as needed\nthreshold = 50\nwhile True:\n    error = left_light.reflection() - threshold\n    correction = error * 1.0  # Adjust gain as needed\n    left.run(200 - correction)\n    right.run(200 + correction)\n    " ++
             stop_condition ++ str "\n    wait(10)\nrobot.stop()"),
           confidence := 75/100, command_type := some (str "line_follow") }

/-- parser.try_parse_parallel. -/
def try_parse_parallel (tokens : List Token) (input : Str) : Option ParseResult :=
  let has_parallel := has_token_type tokens .parallel
  let has_and := containsSeq (str " and ") (pyLower input)
  if ¬has_parallel ∧ ¬has_and then none
  else if has_parallel then
    some { success := true,
           python_code := some (str "async def task1():\n    # First action\n    pass\n\nasync def task2():\n    # Second action\n    pass\n\nawait multitask(task1(), task2())"),
           confidence := 7/10, command_type := some (str "parallel"),
           needs_llm := true }
  else none

/-- parser.try_parse_precise_turn. -/
def try_parse_precise_turn (tokens : List Token) (config : RobotConfig) :
    Option ParseResult :=
  let has_turn := has_verb tokens TURN_VERBS
  let has_precise := has_token_type tokens .precise
  let direction := find_token_by_type tokens .direction
  if ¬has_turn ∨ ¬has_precise then none
  else if dirOutside direction [str "left", str "right"] then none
  else
    match find_token_by_type tokens .number with
    | none =>
      some { success := false,
             needs_clarification := some (mkClar (str "angle")
               (str "What angle should the robot turn precisely?") ClarType.angle),
             confidence := 7/10 }
    | some ang =>
      let angle0 := pyInt (pyOrQ ang.numeric_value (pyF 0))
      let angle :=
        match direction with
        | some d => if d.normalized = some (str "left") then -angle0 else angle0
        | none => angle0
      some { success := true,
             python_code := some (str "# Precise turn using gyro feedback\ntarget_angle = hub.imu.heading() + " ++
               intToStr angle ++
               str "\nwhile abs(hub.imu.heading() - target_angle) > 1:\n    error = target_angle - hub.imu.heading()\n    speed = max(30, min(200, abs(error) * 2))\n    if error > 0:\n        left.run(-speed)\n        right.run(speed)\n    else:\n        left.run(speed)\n        right.run(-speed)\n    wait(10)\nrobot.stop()"),
             confidence := 9/10, command_type := some (str "precise_turn") }

/-! ### parser.try_parse_routine_call -/

def RESERVED_ROUTINE_WORDS : List Str :=
  [str "forward", str "backward", str "left", str "right", str "motor",
   str "speed", str "arm", str "grabber"]

def ROUTINE_PREFIXES : List Str :=
  [str "run ", str "call ", str "execute ", str "start "]

/-- Parameter-string extraction after a matched routine name. -/
def paramsFrom (rest : Str) : Str :=
  if (str "with ").isPrefixOf rest then pyStrip (rest.drop 5) else rest

/-- Match of one known routine name, directly or behind one of the call
prefixes, with its parameter string. -/
def rcTryName (input_lower : Str) (name : Str) : Option (Str × Str) :=
  if name.isPrefixOf input_lower then
    some (name, paramsFrom (pyStrip (input_lower.drop name.length)))
  else
    match ROUTINE_PREFIXES.find? (fun p => (p ++ name).isPrefixOf input_lower) with
    | some p =>
      some (name, paramsFrom (pyStrip (input_lower.drop (p ++ name).length)))
    | none => none

/-- First known routine name that matches, in list order. -/
def rcKnown (input_lower : Str) : List Str → Option (Str × Str)
  | [] => none
  | n :: rest =>
    match rcTryName input_lower n with
    | some r => some r
    | none => rcKnown input_lower rest

/-- re.match of the identifier pattern [a-z][a-z0-9_]* at the start of a
string. -/
def identAt (rest : Str) : Option Str :=
  match rest with
  | c :: cs =>
    if 'a' ≤ c ∧ c ≤ 'z' then
      some (c :: cs.takeWhile
        (fun d => ('a' ≤ d ∧ d ≤ 'z') ∨ ('0' ≤ d ∧ d ≤ '9') ∨ d = '_'))
    else none
  | [] => none

/-- Outcome of the generic run/call prefix scan: a matched identifier with
parameters, an early return None (motor token present), or no match. -/
inductive RoutineScan where
  | found (name params : Str)
  | abort
  | noMatch
deriving DecidableEq, Repr

/-- Generic-identifier loop of try_parse_routine_call over the call
prefixes. -/
def rcGeneric (tokens : List Token) (input_lower : Str) :
    List Str → RoutineScan
  | [] => .noMatch
  | p :: ps =>
    if p.isPrefixOf input_lower then
      let rest := pyStrip (input_lower.drop p.length)
      match identAt rest with
      | some potential =>
        if has_token_type tokens .motor then .abort
        else if potential ∈ RESERVED_ROUTINE_WORDS then
          rcGeneric tokens input_lower ps
        else
          .found potential (paramsFrom (pyStrip (rest.drop potential.length)))
      | none => rcGeneric tokens input_lower ps
    else rcGeneric tokens input_lower ps

/-- Match at one position of the re.findall number pattern
-?[0-9]+(.[0-9]+)?, returning the match and the remaining input. -/
def numAt (s : Str) : Option (Str × Str) :=
  let sign : Str := match s with | '-' :: _ => ['-'] | _ => []
  let r : Str := match s with | '-' :: rest => rest | rest => rest
  let ds := r.takeWhile Char.isDigit
  if ds = [] then none
  else
    let r2 := r.dropWhile Char.isDigit
    match r2 with
    | '.' :: r3 =>
      let fs := r3.takeWhile Char.isDigit
      if fs = [] then some (sign ++ ds, r2)
      else some (sign ++ ds ++ '.' :: fs, r3.dropWhile Char.isDigit)
    | _ => some (sign ++ ds, r2)

/-- Fuelled worker for findNumbers; one unit of fuel per consumed character
suffices. -/
def findNumbersAux : Nat → Str → List Str
  | 0, _ => []
  | _, [] => []
  | fuel + 1, c :: cs =>
    match numAt (c :: cs) with
    | some (m, rest) => m :: findNumbersAux fuel rest
    | none => findNumbersAux fuel cs

/-- re.findall of the number pattern over a parameter string. -/
def findNumbers (s : Str) : List Str := findNumbersAux s.length s

/-- Code emission of try_parse_routine_call for a matched routine. -/
def rcEmit (name params_str : Str) : Option ParseResult :=
  let params := if params_str = [] then [] else findNumbers params_str
  let code :=
    if params = [] then name ++ str "()"
    else name ++ str "(" ++ List.intercalate (str ", ") params ++ str ")"
  some { success := true, python_code := some code,
         confidence := 95/100, command_type := some (str "routine_call") }

/-- parser.try_parse_routine_call. -/
def try_parse_routine_call (tokens : List Token) (input : Str)
    (routine_names : List Str) : Option ParseResult :=
  let input_lower := pyStrip (pyLower input)
  match rcKnown input_lower routine_names with
  | some (name, params_str) => rcEmit name params_str
  | none =>
    match rcGeneric tokens input_lower ROUTINE_PREFIXES with
    | .found name params_str => rcEmit name params_str
    | .abort => none
    | .noMatch => none

/-! ### parser.try_parse_multitask -/

def MULTITASK_KEYWORDS : List Str :=
  [str "move", str "drive", str "turn", str "run", str "motor"]

/-- Split of the lowered input into the two task descriptions of
try_parse_multitask, following the source's elif chain over the parallel
indicators (the empty pair stands for the unset task strings). -/
def multitaskSplit (input_lower : Str) : Str × Str :=
  if containsSeq (str " while ") input_lower then
    match splitOnSeq (str " while ") input_lower with
    | [p0, p1] => (pyStrip p0, pyStrip p1)
    | _ => ([], [])
  else if containsSeq (str "simultaneously") input_lower then
    let rest := pyStrip (replaceSeq (str "simultaneously") [] input_lower)
    if containsSeq (str " and ") rest then
      match splitOnSeq1 (str " and ") rest with
      | [p0, p1] => (pyStrip p0, pyStrip p1)
      | _ => ([], [])
    else ([], [])
  else if containsSeq (str "at the same time") input_lower then
    let rest := pyStrip (replaceSeq (str "at the same time") [] input_lower)
    if containsSeq (str " and ") rest then
      match splitOnSeq1 (str " and ") rest with
      | [p0, p1] => (pyStrip p0, pyStrip p1)
      | _ => ([], [])
    else ([], [])
  else if containsSeq (str " and ") input_lower ∧
      MULTITASK_KEYWORDS.any (fun w => containsSeq w input_lower) then
    match splitOnSeq1 (str " and ") input_lower with
    | [p0, p1] => (pyStrip p0, pyStrip p1)
    | [p0] => (pyStrip p0, [])
    | _ => ([], [])
  else ([], [])

/-- Task-pair extraction of try_parse_multitask: the parallel-indicator
guard and the split of the lowered input into the two task descriptions;
none when the guard fails or either description is empty. -/
def multitaskTasks (input : Str) : Option (Str × Str) :=
  let input_lower := pyLower input
  let has_while := containsSeq (str " while ") input_lower
  let has_simultaneously := containsSeq (str "simultaneously") input_lower
  let has_at_same_time := containsSeq (str "at the same time") input_lower
  let has_parallel_and := containsSeq (str " and ") input_lower ∧
    MULTITASK_KEYWORDS.any (fun w => containsSeq w input_lower)
  if ¬(has_while ∨ has_simultaneously ∨ has_at_same_time ∨ has_parallel_and) then
    none
  else
    let td := multitaskSplit input_lower
    if td.1 = [] ∨ td.2 = [] then none else some td

/-- parser.try_parse_multitask.  The recursive calls parse_command(task,
config, motor_names, []) are supplied as the recur argument by the
dispatcher. -/
def try_parse_multitask (recur : Str → ParseResult) (tokens : List Token)
    (input : Str) : Option ParseResult :=
  match multitaskTasks input with
  | none => none
  | some (task1_desc, task2_desc) =>
    let task1_result := recur task1_desc
    let task2_result := recur task2_desc
    let task1_code :=
      if task1_result.success then task1_result.python_code.getD []
      else str "# TODO: " ++ task1_desc
    let task2_code :=
      if task2_result.success then task2_result.python_code.getD []
      else str "# TODO: " ++ task2_desc
    some { success := true,
           python_code := some (str "# Parallel execution: " ++ task1_desc ++
             str " AND " ++ task2_desc ++ str "\nasync def task1():\n    " ++
             indent4 task1_code ++ str "\n\nasync def task2():\n    " ++
             indent4 task2_code ++ str "\n\nawait multitask(task1(), task2())"),
           confidence := 85/100, command_type := some (str "multitask") }

/-! ### parser.parse_command -/

/-- First non-None result in recognizer order, else the fallback. -/
def firstResult : List (Option ParseResult) → ParseResult → ParseResult
  | [], dflt => dflt
  | none :: rest, dflt => firstResult rest dflt
  | some r :: _, _ => r

/-- The could-not-parse fallback result of parse_command. -/
def fallbackResult : ParseResult :=
  { success := false, error := some (str "Could not parse command"),
    confidence := 0, needs_llm := true }

/-- parser.parse_command, fuelled for the two recursive recognizers.  Any
fuel exceeding the input length yields the same result (proved below); the
zero-fuel value is never reached from parse_command. -/
def parseCommandAux : Nat → Str → RobotConfig → List Str → List Str → ParseResult
  | 0, _, _, _, _ => fallbackResult
  | fuel + 1, input, config, motor_names, routine_names =>
    let tokens := tokenize input
    if tokens = [] then
      { success := false, error := some (str "Empty command"), confidence := 0 }
    else
      firstResult
        [try_parse_routine_call tokens input routine_names,
         try_parse_multitask
           (fun s2 => parseCommandAux fuel s2 config motor_names []) tokens input,
         try_parse_repeat
           (fun s2 => parseCommandAux fuel s2 {} [] []) tokens input,
         try_parse_sensor_wait tokens,
         try_parse_line_follow tokens,
         try_parse_parallel tokens input,
         try_parse_stop tokens motor_names,
         try_parse_set_speed tokens,
         try_parse_motor tokens config motor_names,
         try_parse_precise_turn tokens config,
         try_parse_turn tokens config,
         try_parse_move tokens config,
         try_parse_wait tokens]
        fallbackResult

/-- parser.parse_command with the source's default arguments spelled out
(config = RobotConfig(), no known motors or routines). -/
def parse_command (input : Str) (config : RobotConfig)
    (motor_names routine_names : List Str) : ParseResult :=
  parseCommandAux (input.length + 1) input config motor_names routine_names

/-- Depth instrumentation: the nesting depth of recursive parse_command
invocations actually performed by the dispatcher (repeat loop bodies and
multitask sub-phrases), mirroring the guards of parseCommandAux. -/
def parseDepthAux : Nat → Str → RobotConfig → List Str → List Str → Nat
  | 0, _, _, _, _ => 0
  | fuel + 1, input, config, motor_names, routine_names =>
    let tokens := tokenize input
    if tokens = [] then 0
    else
      match try_parse_routine_call tokens input routine_names with
      | some _ => 0
      | none =>
        match multitaskTasks input with
        | some (t1, t2) =>
          1 + max (parseDepthAux fuel t1 config motor_names [])
                (parseDepthAux fuel t2 config motor_names [])
        | none =>
          if has_token_type tokens .rpt then
            match find_token_by_type tokens .number with
            | none => 0
            | some _ =>
              let action := repeatActionStr input
              if action = [] then 0
              else 1 + parseDepthAux fuel action {} [] []
          else 0

/-- Depth of recursive sub-parses performed while parsing one command. -/
def parseDepth (input : Str) : Nat :=
  parseDepthAux (input.length + 1) input {} [] []

/-! ### Predicates used by the claim statements -/

/-- Union of all exact-match checks performed by classify_word before its
fuzzy section, in source order. -/
def inAnyLexicon (w : Str) : Bool :=
  w ∈ FILLER_WORDS || w ∈ REPEAT_VERBS || w ∈ TIMES_WORDS || w ∈ DEFINE_VERBS ||
  w ∈ MISSION_WORDS || w ∈ SENSOR_WORDS || w ∈ UNTIL_WORDS || w ∈ WHILE_WORDS ||
  w ∈ CONDITION_WORDS || w ∈ COMPARISON_WORDS || w ∈ PARALLEL_WORDS ||
  w ∈ PRECISE_WORDS || w ∈ IF_WORDS || w ∈ THEN_WORDS || w ∈ ELSE_WORDS ||
  w ∈ LINE_WORDS || w ∈ FOLLOW_VERBS || w ∈ CALL_VERBS || w ∈ ARC_VERBS ||
  w ∈ BEEP_VERBS || w ∈ DISPLAY_VERBS || w ∈ RESET_WORDS || w ∈ HOLD_WORDS ||
  w ∈ HEADING_WORDS || w ∈ ON_WORDS || w ∈ OFF_WORDS || w ∈ HUB_WORDS ||
  w ∈ LIGHT_VERBS || w ∈ ALL_VERBS || w ∈ ALL_DIRECTIONS || w ∈ ALL_UNITS ||
  w ∈ COLORS || w ∈ MOTOR_WORDS || w ∈ SPEED_WORDS

/-- The spec's reading of ParseResult as a tagged union: exactly one of the
branches Success, NeedsClarification, NeedsLLM or Error is active. -/
def exactlyOneBranch (r : ParseResult) : Prop :=
  (r.success = true ∧ r.needs_clarification = none ∧ r.error = none ∧
    r.needs_llm = false) ∨
  (r.success = false ∧ r.needs_clarification.isSome ∧ r.error = none ∧
    r.needs_llm = false) ∨
  (r.success = false ∧ r.needs_clarification = none ∧ r.error = none ∧
    r.needs_llm = true) ∨
  (r.success = false ∧ r.needs_clarification = none ∧ r.error.isSome ∧
    r.needs_llm = false)

/-! ### preview.py

The geometry runs over the reals (the idealization of the source's floats);
Mathlib only provides noncomputable order instances for the reals, so this
section is noncomputable. -/

/-- Abstraction of a generated command string as consumed by
parse_command_to_segment: the source matches the patterns
robot.straight(number), robot.turn(number) and wait(number) against the
command text and falls through to None for anything else.  The wait pattern
has no sign, so its payload carries nonnegativity. -/
inductive Cmd where
  | straight (distance : ℝ)
  | turn (angle : ℝ)
  | wait (duration : ℝ) (nonneg : 0 ≤ duration)
  | other

noncomputable section

/-- preview.SCALE_MM_TO_PX. -/
def SCALE_MM_TO_PX : ℝ := 0.5

/-- preview.PreviewPoint. -/
structure PreviewPoint where
  x : ℝ
  y : ℝ
  angle : ℝ
  timestamp : ℝ

/-- preview.PreviewSegment (the command field holds the abstracted
command). -/
structure PreviewSegment where
  type : Str
  start_point : PreviewPoint
  end_point : PreviewPoint
  command : Cmd

/-- preview.CalculatedPreviewPath. -/
structure CalculatedPreviewPath where
  segments : List PreviewSegment
  total_time : ℝ
  end_position : PreviewPoint

/-- preview.normalize_angle: Python angle % 360 (which for a float equals
angle - 360 * floor(angle / 360)) followed by the source's negative guard. -/
def normalize_angle (angle : ℝ) : ℝ :=
  let normalized := angle - 360 * ⌊angle / 360⌋
  if normalized < 0 then normalized + 360 else normalized

/-- Difference adjustment of interpolate_angle: the two sequential
conditional shifts applied to end - start. -/
def wrapDiff (start stop : ℝ) : ℝ :=
  let diff := stop - start
  let diff2 := if diff > 180 then diff - 360 else diff
  if diff2 < -180 then diff2 + 360 else diff2

/-- preview.interpolate_angle. -/
def interpolate_angle (start stop progress : ℝ) : ℝ :=
  normalize_angle (start + wrapDiff start stop * progress)

/-- preview.calculate_straight_segment; math.radians(x) is x * pi / 180. -/
def calculate_straight_segment (start_point : PreviewPoint)
    (distance speed : ℝ) (command : Cmd) : PreviewSegment :=
  let speed_per_second := if speed > 0 then speed else 1
  let angle_rad := (start_point.angle - 90) * (Real.pi / 180)
  let dx := distance * SCALE_MM_TO_PX * Real.cos angle_rad
  let dy := distance * SCALE_MM_TO_PX * Real.sin angle_rad
  let time_ms := |distance| / speed_per_second * 1000
  { type := str "straight",
    start_point := { x := start_point.x, y := start_point.y,
                     angle := start_point.angle,
                     timestamp := start_point.timestamp },
    end_point := { x := start_point.x + dx, y := start_point.y + dy,
                   angle := start_point.angle,
                   timestamp := start_point.timestamp + time_ms },
    command := command }

/-- preview.calculate_turn_segment. -/
def calculate_turn_segment (start_point : PreviewPoint)
    (angle turn_rate : ℝ) (command : Cmd) : PreviewSegment :=
  let degrees_per_second := if turn_rate > 0 then turn_rate else 1
  let time_ms := |angle| / degrees_per_second * 1000
  { type := str "turn",
    start_point := { x := start_point.x, y := start_point.y,
                     angle := start_point.angle,
                     timestamp := start_point.timestamp },
    end_point := { x := start_point.x, y := start_point.y,
                   angle := normalize_angle (start_point.angle + angle),
                   timestamp := start_point.timestamp + time_ms },
    command := command }

/-- preview.calculate_wait_segment. -/
def calculate_wait_segment (start_point : PreviewPoint)
    (duration : ℝ) (command : Cmd) : PreviewSegment :=
  { type := str "wait",
    start_point := { x := start_point.x, y := start_point.y,
                     angle := start_point.angle,
                     timestamp := start_point.timestamp },
    end_point := { x := start_point.x, y := start_point.y,
                   angle := start_point.angle,
                   timestamp := start_point.timestamp + duration },
    command := command }

/-- preview.parse_command_to_segment over the abstracted command. -/
def parse_command_to_segment (command : Cmd) (start_point : PreviewPoint)
    (speed turn_rate : ℝ) : Option PreviewSegment :=
  match command with
  | .straight d =>
    some (calculate_straight_segment start_point d speed (Cmd.straight d))
  | .turn a => some (calculate_turn_segment start_point a turn_rate (Cmd.turn a))
  | .wait d h => some (calculate_wait_segment start_point d (Cmd.wait d h))
  | .other => none

/-- Loop body of calculate_path: one command applied to the accumulated
segments, current position and running total time, re-basing the segment's
timestamps onto the running total. -/
def calcPathStep (speed turn_rate : ℝ)
    (acc : List PreviewSegment × PreviewPoint × ℝ) (command : Cmd) :
    List PreviewSegment × PreviewPoint × ℝ :=
  let segments := acc.1
  let current_position := acc.2.1
  let total_time := acc.2.2
  match parse_command_to_segment command current_position speed turn_rate with
  | none => acc
  | some segment =>
    let duration := segment.end_point.timestamp - segment.start_point.timestamp
    let seg2 : PreviewSegment :=
      { segment with
        start_point := { segment.start_point with timestamp := total_time },
        end_point := { segment.end_point with timestamp := total_time + duration } }
    (segments ++ [seg2],
     { x := seg2.end_point.x, y := seg2.end_point.y,
       angle := seg2.end_point.angle, timestamp := seg2.end_point.timestamp },
     total_time + duration)

/-- preview.calculate_path. -/
def calculate_path (commands : List Cmd) (start_position : PreviewPoint)
    (speed turn_rate : ℝ) : CalculatedPreviewPath :=
  let init : List PreviewSegment × PreviewPoint × ℝ :=
    ([],
     { x := start_position.x, y := start_position.y,
       angle := start_position.angle, timestamp := start_position.timestamp },
     0)
  let final := commands.foldl (calcPathStep speed turn_rate) init
  { segments := final.1, total_time := final.2.2, end_position := final.2.1 }

/-- Segment scan of get_position_at_time: the first segment whose timestamp
interval contains the query, interpolated. -/
def scanSegments (segments : List PreviewSegment) (timestamp : ℝ) :
    Option PreviewPoint :=
  match segments with
  | [] => none
  | segment :: rest =>
    if segment.start_point.timestamp ≤ timestamp ∧
        timestamp ≤ segment.end_point.timestamp then
      let duration := segment.end_point.timestamp - segment.start_point.timestamp
      let progress0 :=
        if duration = 0 then 1
        else (timestamp - segment.start_point.timestamp) / duration
      let progress := min (max progress0 0) 1
      some { x := segment.start_point.x +
               (segment.end_point.x - segment.start_point.x) * progress,
             y := segment.start_point.y +
               (segment.end_point.y - segment.start_point.y) * progress,
             angle := interpolate_angle segment.start_point.angle
               segment.end_point.angle progress,
             timestamp := timestamp }
    else scanSegments rest timestamp

/-- preview.get_position_at_time. -/
def get_position_at_time (path : CalculatedPreviewPath) (timestamp : ℝ) :
    PreviewPoint :=
  if path.segments.length = 0 then { x := 0, y := 0, angle := 0, timestamp := 0 }
  else
    match scanSegments path.segments timestamp with
    | some p => p
    | none =>
      { x := path.end_position.x, y := path.end_position.y,
        angle := path.end_position.angle,
        timestamp := path.end_position.timestamp }

/-- Per-segment invariant of calculate_path output: duration is nonnegative,
a straight segment keeps its angle, a turn keeps x and y, a wait keeps x, y
and angle. -/
def segOK (seg : PreviewSegment) : Prop :=
  seg.start_point.timestamp ≤ seg.end_point.timestamp ∧
  (seg.type = str "straight" → seg.end_point.angle = seg.start_point.angle) ∧
  (seg.type = str "turn" → seg.end_point.x = seg.start_point.x ∧
    seg.end_point.y = seg.start_point.y) ∧
  (seg.type = str "wait" → seg.end_point.x = seg.start_point.x ∧
    seg.end_point.y = seg.start_point.y ∧
    seg.end_point.angle = seg.start_point.angle)

/-- Invariant of the calculate_path fold accumulator (segments so far,
current position, running total time): every emitted segment satisfies
segOK, consecutive segments chain end-to-start, the last segment ends at
the running total (which is 0 while no segment was emitted), and the first
segment starts at time 0. -/
def pathAccInv (acc : List PreviewSegment × PreviewPoint × ℝ) : Prop :=
  (∀ seg ∈ acc.1, segOK seg) ∧
  List.Chain' (fun a b => b.start_point.timestamp = a.end_point.timestamp) acc.1 ∧
  (∀ s, acc.1.getLast? = some s → s.end_point.timestamp = acc.2.2) ∧
  (acc.1 = [] → acc.2.2 = 0) ∧
  (∀ s, acc.1.head? = some s → s.start_point.timestamp = 0)

end

/-! ### Lemmas about the edit distance -/

theorem levR_nil_right (a : Str) : levR a [] = a.length := by
  cases a <;> simp [levR]

theorem levR_self (a : Str) : levR a a = 0 := by
  induction a with
  | nil => simp [levR]
  | cons x xs ih => simp [levR, ih]

theorem levR_symm (a : Str) : ∀ b, levR a b = levR b a := by
  induction a with
  | nil => intro b; cases b <;> simp [levR]
  | cons x xs ihx =>
    intro b
    induction b with
    | nil => simp [levR]
    | cons y ys ihy =>
      have h1 : levR xs ys = levR ys xs := ihx ys
      have h2 : levR xs (y :: ys) = levR (y :: ys) xs := ihx (y :: ys)
      have hc : (if x = y then 0 else 1) = (if y = x then 0 else 1) := by
        by_cases h : x = y
        · simp [h]
        · have h2 : ¬y = x := fun hyx => h hyx.symm
          simp [h, h2]
      simp only [levR] at ihy ⊢
      rw [h1, h2, hc, ihy]
      omega

theorem rowFor_headD (ra rb : Str) (bs : Str) :
    (rowFor ra rb bs).headD 0 = levR ra rb := by
  cases bs <;> simp [rowFor]

theorem levRow_spec (c1 : Char) (ra : Str) :
    ∀ (bs rb : Str),
      levR (c1 :: ra) rb :: levRow c1 bs (rowFor ra rb bs) (levR (c1 :: ra) rb) =
        rowFor (c1 :: ra) rb bs := by
  intro bs
  induction bs with
  | nil => intro rb; simp [levRow, rowFor]
  | cons y ys ih =>
    intro rb
    have hv : min ((rowFor ra (y :: rb) ys).headD 0 + 1)
        (min (levR (c1 :: ra) rb + 1)
          (levR ra rb + (if c1 = y then 0 else 1))) =
        levR (c1 :: ra) (y :: rb) := by
      rw [rowFor_headD]
      simp only [levR]
      omega
    simp only [rowFor, levRow]
    rw [hv, ih (y :: rb)]

theorem levLoop_spec (b : Str) :
    ∀ (as : Str) (ra : Str),
      levLoop b as ra.length (rowFor ra [] b) = rowFor (List.reverseAux as ra) [] b := by
  intro as
  induction as with
  | nil => intro ra; simp [levLoop, List.reverseAux]
  | cons c1 rest ih =>
    intro ra
    have hlast : levR (c1 :: ra) [] = ra.length + 1 := by
      rw [levR_nil_right]; simp
    have hrow : (ra.length + 1) :: levRow c1 b (rowFor ra [] b) (ra.length + 1) =
        rowFor (c1 :: ra) [] b := by
      have := levRow_spec c1 ra b []
      rwa [hlast] at this
    calc levLoop b (c1 :: rest) ra.length (rowFor ra [] b)
        = levLoop b rest (ra.length + 1)
            ((ra.length + 1) :: levRow c1 b (rowFor ra [] b) (ra.length + 1)) := by
          simp [levLoop]
      _ = levLoop b rest (c1 :: ra).length (rowFor (c1 :: ra) [] b) := by
          rw [hrow]; rfl
      _ = rowFor (List.reverseAux (c1 :: rest) ra) [] b := by
          rw [ih (c1 :: ra)]; rfl

theorem rowFor_nil_left : ∀ (bs rb : Str),
    rowFor [] rb bs = List.range' rb.length (bs.length + 1) := by
  intro bs
  induction bs with
  | nil => intro rb; simp [rowFor, List.range', levR]
  | cons y ys ih =>
    intro rb
    have h := ih (y :: rb)
    simp only [rowFor, levR, List.length_cons] at h ⊢
    rw [h]
    simp [List.range'_succ]

theorem rowFor_getLast : ∀ (bs ra rb : Str),
    (rowFor ra rb bs).getLast?.getD 0 = levR ra (List.reverseAux bs rb) := by
  intro bs
  induction bs with
  | nil => intro ra rb; simp [rowFor, List.reverseAux]
  | cons y ys ih =>
    intro ra rb
    obtain ⟨t, ht⟩ : ∃ t, rowFor ra (y :: rb) ys = levR ra (y :: rb) :: t := by
      cases ys <;> exact ⟨_, rfl⟩
    simp only [rowFor, List.reverseAux]
    rw [ht, List.getLast?_cons_cons, ← ht]
    exact ih ra (y :: rb)

theorem levCore_eq (a b : Str) : levCore a b = levR a.reverse b.reverse := by
  unfold levCore
  by_cases hb : b.length = 0
  · have : b = [] := List.length_eq_zero.mp hb
    subst this
    simp [levR_nil_right]
  · rw [if_neg hb]
    have hinit : List.range (b.length + 1) = rowFor [] [] b := by
      rw [rowFor_nil_left b []]
      simp [List.range_eq_range']
    rw [hinit]
    have hloop := levLoop_spec b a []
    simp only [List.length_nil] at hloop
    rw [hloop]
    have hlast := rowFor_getLast b (List.reverseAux a []) []
    simp only [List.reverseAux_nil] at *
    rw [hlast]
    simp [List.reverseAux_eq]

theorem levenshtein_eq (a b : Str) :
    levenshtein_distance a b = levR a.reverse b.reverse := by
  unfold levenshtein_distance
  by_cases h : a.length < b.length
  · rw [if_pos h, levCore_eq, levR_symm]
  · rw [if_neg h, levCore_eq]

/-! ### Characterization of find_best_match -/

/-- Loop invariant of find_best_match over the options already examined:
with no best match yet, every examined option is beyond max_distance; with a
best match (b, bd), bd is its distance, it is within max_distance, options
examined before b are strictly farther and options examined after b are no
closer. -/
def fbmInv (iL : Str) (m : Nat) (seen : List Str) : Option (Str × Nat) → Prop
  | none => ∀ o ∈ seen, m < levenshtein_distance iL (pyLower o)
  | some (b, bd) =>
      bd = levenshtein_distance iL (pyLower b) ∧ bd ≤ m ∧
      ∃ pre post, seen = pre ++ b :: post ∧
        (∀ o ∈ pre, bd < levenshtein_distance iL (pyLower o)) ∧
        (∀ o ∈ post, bd ≤ levenshtein_distance iL (pyLower o))

theorem fbmStep_inv (iL : Str) (m : Nat) (seen : List Str)
    (st : Option (Str × Nat)) (opt : Str) (h : fbmInv iL m seen st) :
    fbmInv iL m (seen ++ [opt]) (fbmStep iL m st opt) := by
  match st with
  | none =>
    simp only [fbmStep]
    by_cases hd : levenshtein_distance iL (pyLower opt) ≤ m
    · rw [if_pos hd]
      refine ⟨rfl, hd, seen, [], rfl, ?_, by simp⟩
      intro o ho
      exact lt_of_le_of_lt hd (h o ho)
    · rw [if_neg hd]
      intro o ho
      rcases List.mem_append.mp ho with h1 | h1
      · exact h o h1
      · simp only [List.mem_singleton] at h1
        subst h1
        omega
  | some (b, bd) =>
    obtain ⟨hbd, hbm, pre, post, hseen, hpre, hpost⟩ := h
    simp only [fbmStep]
    by_cases hd : levenshtein_distance iL (pyLower opt) < bd ∧
        levenshtein_distance iL (pyLower opt) ≤ m
    · rw [if_pos hd]
      refine ⟨rfl, hd.2, seen, [], rfl, ?_, by simp⟩
      intro o ho
      rw [hseen] at ho
      rcases List.mem_append.mp ho with h1 | h1
      · exact lt_trans hd.1 (hpre o h1)
      · rcases List.mem_cons.mp h1 with h2 | h2
        · subst h2; omega
        · exact lt_of_lt_of_le hd.1 (hpost o h2)
    · rw [if_neg hd]
      refine ⟨hbd, hbm, pre, post ++ [opt], by rw [hseen]; simp, hpre, ?_⟩
      intro o ho
      rcases List.mem_append.mp ho with h1 | h1
      · exact hpost o h1
      · simp only [List.mem_singleton] at h1
        subst h1
        omega

theorem fbm_foldl_inv (iL : Str) (m : Nat) :
    ∀ (opts seen : List Str) (st : Option (Str × Nat)),
      fbmInv iL m seen st →
      fbmInv iL m (seen ++ opts) (List.foldl (fbmStep iL m) st opts) := by
  intro opts
  induction opts with
  | nil => intro seen st h; simpa using h
  | cons o rest ih =>
    intro seen st h
    have h2 := fbmStep_inv iL m seen st o h
    have h3 := ih (seen ++ [o]) (fbmStep iL m st o) h2
    simpa using h3

/-- C8: levenshtein_distance is symmetric and zero on equal strings, and
find_best_match returns the candidate minimizing the distance among those
within max_distance, ties broken by first occurrence in the candidate list,
and none when no candidate qualifies. -/
theorem C8_fuzzy_match_spec :
    (∀ a b : Str, levenshtein_distance a b = levenshtein_distance b a) ∧
    (∀ a : Str, levenshtein_distance a a = 0) ∧
    (∀ (input : Str) (options : List Str) (m : Nat),
      find_best_match input options m = none ↔
        ∀ o ∈ options, m < levenshtein_distance (pyLower input) (pyLower o)) ∧
    (∀ (input : Str) (options : List Str) (m : Nat) (c : Str) (d : Nat),
      find_best_match input options m = some (c, d) →
        d = levenshtein_distance (pyLower input) (pyLower c) ∧ d ≤ m ∧
        ∃ pre post, options = pre ++ c :: post ∧
          (∀ o ∈ pre, d < levenshtein_distance (pyLower input) (pyLower o)) ∧
          (∀ o ∈ post, d ≤ levenshtein_distance (pyLower input) (pyLower o))) := by
  refine ⟨?_, ?_, ?_, ?_⟩
  · intro a b
    rw [levenshtein_eq, levenshtein_eq, levR_symm]
  · intro a
    rw [levenshtein_eq, levR_self]
  · intro input options m
    have h := fbm_foldl_inv (pyLower input) m options [] none (by
      intro o ho
      simp at ho)
    simp only [List.nil_append] at h
    unfold find_best_match
    constructor
    · intro hnone
      rw [hnone] at h
      exact h
    · intro hall
      rcases hres : List.foldl (fbmStep (pyLower input) m) none options with _ | ⟨b, bd⟩
      · rfl
      · rw [hres] at h
        obtain ⟨hbd, hbm, pre, post, hseen, -, -⟩ := h
        have hb : b ∈ options := by
          rw [hseen]
          simp
        have := hall b hb
        omega
  · intro input options m c d hfind
    have h := fbm_foldl_inv (pyLower input) m options [] none (by
      intro o ho
      simp at ho)
    simp only [List.nil_append] at h
    unfold find_best_match at hfind
    rw [hfind] at h
    exact h

/-- Witness: the symmetry conjunct at the pair of test strings from the
repository's own test suite, and the minimizing-candidate conjunct at the
test suite's find_best_match example. -/
theorem C8_fuzzy_match_spec_witness :
    levenshtein_distance (str "move") (str "mve") =
      levenshtein_distance (str "mve") (str "move") ∧
    (∃ pre post,
      [str "move", str "turn", str "wait", str "stop"] = pre ++ str "move" :: post ∧
      (∀ o ∈ pre, 2 < levenshtein_distance (pyLower (str "moov")) (pyLower o)) ∧
      (∀ o ∈ post, 2 ≤ levenshtein_distance (pyLower (str "moov")) (pyLower o))) :=
  ⟨C8_fuzzy_match_spec.1 (str "move") (str "mve"),
    (C8_fuzzy_match_spec.2.2.2 (str "moov")
      [str "move", str "turn", str "wait", str "stop"] 2 (str "move") 2
      (by decide)).2.2⟩

/-! ### Tokenizer lemmas -/

theorem classifyUnitColor_value (w : Str) : (classifyUnitColor w).value = w := by
  unfold classifyUnitColor
  repeat' split
  all_goals rfl

theorem classifyFuzzy_value (w : Str) : (classifyFuzzy w).value = w := by
  unfold classifyFuzzy
  repeat' split
  all_goals first | rfl | exact classifyUnitColor_value w

theorem classify_word_value (w : Str) : (classify_word w).value = w := by
  simp only [classify_word, apply_ite Token.value, classifyFuzzy_value, ite_self]

theorem wordsAux_ne_nil : ∀ (s acc : Str) (w : Str), w ∈ wordsAux s acc → w ≠ [] := by
  intro s
  induction s with
  | nil =>
    intro acc w hw
    unfold wordsAux at hw
    split at hw
    · simp at hw
    · rename_i hacc
      simp only [List.mem_singleton] at hw
      subst hw
      simpa using hacc
  | cons c cs ih =>
    intro acc w hw
    unfold wordsAux at hw
    split at hw
    · split at hw
      · exact ih [] w hw
      · rename_i hacc
        rcases List.mem_cons.mp hw with h1 | h1
        · subst h1
          simpa using hacc
        · exact ih [] w h1
    · exact ih (c :: acc) w hw

theorem matchNumCore_num_ne_nil (sign rest num_str unit_str : Str)
    (h : matchNumCore sign rest = some (num_str, unit_str)) : num_str ≠ [] := by
  unfold matchNumCore at h
  by_cases hds : rest.takeWhile Char.isDigit = []
  · simp only [hds, if_pos] at h
    exact absurd h (by simp)
  · simp only [if_neg hds] at h
    repeat' split at h
    all_goals
      first
        | (simp only [Option.some.injEq, Prod.mk.injEq] at h
           obtain ⟨h1, -⟩ := h
           subst h1
           simp [hds])
        | simp at h

theorem matchNumWord_num_ne_nil (w num_str unit_str : Str)
    (h : matchNumWord w = some (num_str, unit_str)) : num_str ≠ [] := by
  unfold matchNumWord at h
  split at h
  · exact matchNumCore_num_ne_nil _ _ _ _ h
  · exact matchNumCore_num_ne_nil _ _ _ _ h

/-- C4: tokenize is a total function on arbitrary strings (it is a plain
Lean function, so it terminates and raises nothing), the empty string yields
the empty token sequence, and every produced token carries a nonempty word
of the input. -/
theorem C4_tokenize_total :
    tokenize (str "") = [] ∧
    ∀ s : Str, ∀ t ∈ tokenize s, t.value ≠ [] := by
  refine ⟨by decide, ?_⟩
  intro s t ht
  unfold tokenize at ht
  rw [List.mem_flatten] at ht
  obtain ⟨l, hl, htl⟩ := ht
  rw [List.mem_map] at hl
  obtain ⟨w, hw, rfl⟩ := hl
  have hwne : w ≠ [] := wordsAux_ne_nil _ [] w hw
  unfold wordTokens at htl
  rcases hm : matchNumWord w with _ | ⟨num_str, unit_str⟩
  · rw [hm] at htl
    simp only [List.mem_singleton] at htl
    subst htl
    rw [classify_word_value]
    exact hwne
  · rw [hm] at htl
    rcases List.mem_cons.mp htl with h1 | h1
    · subst h1
      exact matchNumWord_num_ne_nil w num_str unit_str hm
    · split at h1
      · simp at h1
      · rename_i hu
        simp only [List.mem_singleton] at h1
        subst h1
        rw [classify_word_value]
        exact hu

/-- Witness for C4 at a concrete sentence and token. -/
theorem C4_tokenize_total_witness :
    (Token.mk TokType.verb (str "go") (some (str "go")) none).value ≠ [] :=
  C4_tokenize_total.2 (str "go") _ (by decide)

/-! ### C7: the fuzzy-matching length gate -/

/-- Counterexample to C7: the two-character word cn matches no lexicon
exactly, yet classify_word fuzzy-classifies it as the unit cm instead of
emitting a generic word token, because the unit and color fuzzy matches sit
outside the length-at-least-4 guard. -/
theorem C7_counterexample :
    (str "cn").length < 4 ∧ inAnyLexicon (str "cn") = false ∧
    classify_word (str "cn") =
      { type := TokType.unit, value := str "cn", normalized := some (str "cm") } := by
  decide

theorem classify_word_no_lexicon (w : Str) (h : inAnyLexicon w = false) :
    classify_word w = classifyFuzzy w := by
  simp only [inAnyLexicon, Bool.or_eq_false_iff, decide_eq_false_iff_not,
    and_assoc] at h
  obtain ⟨h1, h2, h3, h4, h5, h6, h7, h8, h9, h10, h11, h12, h13, h14, h15,
    h16, h17, h18, h19, h20, h21, h22, h23, h24, h25, h26, h27, h28, h29,
    h30, h31, h32, h33, h34⟩ := h
  unfold classify_word
  rw [if_neg (fun hc => h1 hc.1), if_neg h2, if_neg h3, if_neg h4, if_neg h5,
    if_neg h6, if_neg h7, if_neg h8, if_neg h9, if_neg h10, if_neg h11,
    if_neg h12, if_neg h13, if_neg h14, if_neg h15, if_neg h16, if_neg h17,
    if_neg h18, if_neg h19, if_neg h20, if_neg h21, if_neg h22, if_neg h23,
    if_neg h24, if_neg h25, if_neg h26, if_neg h27, if_neg h28, if_neg h29,
    if_neg h30, if_neg h31, if_neg h32, if_neg h33, if_neg h34]

theorem classifyUnitColor_type (w : Str) :
    (classifyUnitColor w).type = TokType.unit ∨
    (classifyUnitColor w).type = TokType.color ∨
    (classifyUnitColor w).type = TokType.word := by
  unfold classifyUnitColor
  repeat' split
  all_goals simp

/-- C7 amended: the length-at-least-4 gate applies only to the verb and
direction fuzzy matches; the unit and color fuzzy matches (distance at most
2) run for words of any length, so a short unmatched word is fuzzy-classified
as a unit or color when one is close enough and becomes a generic word token
only otherwise.  For words of length at least 4 the claimed verb rule
(distance at most 1 plus first-letter match) and direction rule stand. -/
theorem C7_amended :
    (∀ w : Str, w.length < 4 → inAnyLexicon w = false →
      classify_word w = classifyUnitColor w ∧
      ((classify_word w).type ≠ TokType.verb ∧
        (classify_word w).type ≠ TokType.direction) ∧
      (find_best_match w ALL_UNITS 2 = none → find_best_match w COLORS 2 = none →
        classify_word w = { type := TokType.word, value := w })) ∧
    (∀ w : Str, 4 ≤ w.length → inAnyLexicon w = false → w ∉ VERB_BLACKLIST →
      (∀ vm d, find_best_match w ALL_VERBS 1 = some (vm, d) →
        vm.headD ' ' = w.headD ' ' →
        classify_word w =
          { type := TokType.verb, value := w, normalized := some vm }) ∧
      (∀ dm d, find_best_match w ALL_VERBS 1 = none →
        find_best_match w ALL_DIRECTIONS 2 = some (dm, d) →
        classify_word w =
          { type := TokType.direction, value := w,
            normalized := some (normalize_direction dm) })) := by
  constructor
  · intro w hlen hlex
    have hcf : classify_word w = classifyUnitColor w := by
      rw [classify_word_no_lexicon w hlex]
      unfold classifyFuzzy
      rw [if_neg]
      intro hcon
      omega
    refine ⟨hcf, ?_, ?_⟩
    · rw [hcf]
      rcases classifyUnitColor_type w with h | h | h <;> rw [h] <;> simp
    · intro hu hc
      rw [hcf]
      unfold classifyUnitColor
      rw [hu]
      simp only [hc]
  · intro w hlen hlex hbl
    constructor
    · intro vm d hvm hhead
      rw [classify_word_no_lexicon w hlex]
      unfold classifyFuzzy
      rw [if_pos ⟨hlen, hbl⟩, hvm]
      simp only [hhead]
      simp
    · intro dm d hvm hdm
      rw [classify_word_no_lexicon w hlex]
      unfold classifyFuzzy
      rw [if_pos ⟨hlen, hbl⟩, hvm]
      simp only [hdm]

/-- Witness for the amended C7: the short word xqz (no exact or fuzzy match
anywhere) becomes a generic word token, and the length-4 typo movv is
fuzzy-matched to the verb move. -/
theorem C7_amended_witness :
    classify_word (str "xqz") = { type := TokType.word, value := str "xqz" } ∧
    classify_word (str "movv") =
      { type := TokType.verb, value := str "movv",
        normalized := some (str "move") } :=
  ⟨(C7_amended.1 (str "xqz") (by decide) (by decide)).2.2 (by decide) (by decide),
   (C7_amended.2 (str "movv") (by decide) (by decide) (by decide)).1
     (str "move") 1 (by decide) (by decide)⟩

/-! ### C2: unit conversion in parse_command -/

/-- C2: parse_command converts extracted numbers by the recognizer's unit
policy: distance units to millimetres with backward negation for move, and
time units to milliseconds with a bare number read as seconds for wait. -/
theorem C2_unit_conversion :
    (parse_command (str "move forward 200mm") {} [] []).python_code =
      some (str "robot.straight(200)") ∧
    (parse_command (str "move backward 100mm") {} [] []).python_code =
      some (str "robot.straight(-100)") ∧
    (parse_command (str "move forward 10cm") {} [] []).python_code =
      some (str "robot.straight(100)") ∧
    (parse_command (str "move forward 1m") {} [] []).python_code =
      some (str "robot.straight(1000)") ∧
    (parse_command (str "wait 2 seconds") {} [] []).python_code =
      some (str "wait(2000)") ∧
    (parse_command (str "wait 500ms") {} [] []).python_code =
      some (str "wait(500)") ∧
    (parse_command (str "move forward 200mm") {} [] []).command_type =
      some (str "move") ∧
    (parse_command (str "wait 2 seconds") {} [] []).command_type =
      some (str "wait") := by
  decide

/-! ### C3: the ParseResult tagged-union invariant -/

theorem rcEmit_branch (name params_str : Str) (r : ParseResult)
    (h : rcEmit name params_str = some r) : exactlyOneBranch r := by
  simp only [rcEmit] at h
  repeat' split at h
  all_goals
    first
      | (simp only [Option.some.injEq] at h
         subst h
         simp [exactlyOneBranch, mkClar])
      | simp at h

theorem try_parse_routine_call_branch (tokens : List Token) (input : Str)
    (routine_names : List Str) (r : ParseResult)
    (h : try_parse_routine_call tokens input routine_names = some r) :
    exactlyOneBranch r := by
  simp only [try_parse_routine_call] at h
  rcases hk : rcKnown (pyStrip (pyLower input)) routine_names with _ | ⟨name, params⟩
  · rw [hk] at h
    cases hg : rcGeneric tokens (pyStrip (pyLower input)) ROUTINE_PREFIXES with
    | found name2 params2 =>
      rw [hg] at h
      exact rcEmit_branch _ _ _ h
    | abort =>
      rw [hg] at h
      exact Option.noConfusion h
    | noMatch =>
      rw [hg] at h
      exact Option.noConfusion h
  · rw [hk] at h
    exact rcEmit_branch _ _ _ h

theorem try_parse_multitask_branch (recur : Str → ParseResult)
    (tokens : List Token) (input : Str) (r : ParseResult)
    (h : try_parse_multitask recur tokens input = some r) :
    exactlyOneBranch r := by
  simp only [try_parse_multitask] at h
  repeat' split at h
  all_goals
    first
      | (simp only [Option.some.injEq] at h
         subst h
         simp [exactlyOneBranch, mkClar])
      | simp at h

theorem try_parse_repeat_branch (recur : Str → ParseResult)
    (tokens : List Token) (input : Str) (r : ParseResult)
    (h : try_parse_repeat recur tokens input = some r) :
    exactlyOneBranch r := by
  unfold try_parse_repeat at h
  split at h
  · exact Option.noConfusion h
  · split at h
    next =>
      simp only [Option.some.injEq] at h
      subst h
      simp [exactlyOneBranch, mkClar]
    next n heq =>
      by_cases hact : repeatActionStr input = []
      · rw [if_pos hact] at h
        simp only [Option.some.injEq] at h
        subst h
        simp [exactlyOneBranch, mkClar]
      · rw [if_neg hact] at h
        by_cases hr2 : (recur (repeatActionStr input)).success = true ∧
            ¬(recur (repeatActionStr input)).python_code.getD [] = []
        · rw [if_pos hr2] at h
          simp only [Option.some.injEq] at h
          subst h
          simp [exactlyOneBranch, mkClar]
        · rw [if_neg hr2] at h
          simp only [Option.some.injEq] at h
          subst h
          simp [exactlyOneBranch, mkClar]

theorem try_parse_sensor_wait_branch (tokens : List Token) (r : ParseResult)
    (h : try_parse_sensor_wait tokens = some r) : exactlyOneBranch r := by
  simp only [try_parse_sensor_wait] at h
  repeat' split at h
  all_goals
    first
      | (simp only [Option.some.injEq] at h
         subst h
         simp [exactlyOneBranch, mkClar])
      | simp at h

theorem try_parse_line_follow_branch (tokens : List Token) (r : ParseResult)
    (h : try_parse_line_follow tokens = some r) : exactlyOneBranch r := by
  simp only [try_parse_line_follow] at h
  repeat' split at h
  all_goals
    first
      | (simp only [Option.some.injEq] at h
         subst h
         simp [exactlyOneBranch, mkClar])
      | simp at h

theorem try_parse_parallel_branch (tokens : List Token) (input : Str)
    (r : ParseResult) (h : try_parse_parallel tokens input = some r) :
    r.success = true ∧ r.needs_llm = true ∧
      r.command_type = some (str "parallel") := by
  simp only [try_parse_parallel] at h
  repeat' split at h
  all_goals
    first
      | (simp only [Option.some.injEq] at h
         subst h
         simp)
      | simp at h

theorem try_parse_stop_branch (tokens : List Token) (motor_names : List Str)
    (r : ParseResult) (h : try_parse_stop tokens motor_names = some r) :
    exactlyOneBranch r := by
  simp only [try_parse_stop] at h
  repeat' split at h
  all_goals
    first
      | (simp only [Option.some.injEq] at h
         subst h
         simp [exactlyOneBranch, mkClar])
      | simp at h

theorem try_parse_set_speed_branch (tokens : List Token) (r : ParseResult)
    (h : try_parse_set_speed tokens = some r) : exactlyOneBranch r := by
  simp only [try_parse_set_speed] at h
  repeat' split at h
  all_goals
    first
      | (simp only [Option.some.injEq] at h
         subst h
         simp [exactlyOneBranch, mkClar])
      | simp at h

theorem try_parse_motor_branch (tokens : List Token) (config : RobotConfig)
    (motor_names : List Str) (r : ParseResult)
    (h : try_parse_motor tokens config motor_names = some r) :
    exactlyOneBranch r := by
  simp only [try_parse_motor] at h
  repeat' split at h
  all_goals
    first
      | (simp only [Option.some.injEq] at h
         subst h
         simp [exactlyOneBranch, mkClar])
      | simp at h

theorem try_parse_precise_turn_branch (tokens : List Token)
    (config : RobotConfig) (r : ParseResult)
    (h : try_parse_precise_turn tokens config = some r) :
    exactlyOneBranch r := by
  simp only [try_parse_precise_turn] at h
  repeat' split at h
  all_goals
    first
      | (simp only [Option.some.injEq] at h
         subst h
         simp [exactlyOneBranch, mkClar])
      | simp at h

theorem try_parse_turn_branch (tokens : List Token) (config : RobotConfig)
    (r : ParseResult) (h : try_parse_turn tokens config = some r) :
    exactlyOneBranch r := by
  simp only [try_parse_turn] at h
  repeat' split at h
  all_goals
    first
      | (simp only [Option.some.injEq] at h
         subst h
         simp [exactlyOneBranch, mkClar])
      | simp at h

theorem try_parse_move_branch (tokens : List Token) (config : RobotConfig)
    (r : ParseResult) (h : try_parse_move tokens config = some r) :
    exactlyOneBranch r := by
  simp only [try_parse_move] at h
  repeat' split at h
  all_goals
    first
      | (simp only [Option.some.injEq] at h
         subst h
         simp [exactlyOneBranch, mkClar])
      | simp at h

theorem try_parse_wait_branch (tokens : List Token) (r : ParseResult)
    (h : try_parse_wait tokens = some r) : exactlyOneBranch r := by
  simp only [try_parse_wait] at h
  repeat' split at h
  all_goals
    first
      | (simp only [Option.some.injEq] at h
         subst h
         simp [exactlyOneBranch, mkClar])
      | simp at h

theorem firstResult_prop (P : ParseResult → Prop) :
    ∀ (l : List (Option ParseResult)) (dflt : ParseResult),
      P dflt → (∀ r, some r ∈ l → P r) → P (firstResult l dflt) := by
  intro l
  induction l with
  | nil => intro dflt hd _; exact hd
  | cons o rest ih =>
    intro dflt hd hl
    match o with
    | none => exact ih dflt hd (fun r hr => hl r (List.mem_cons_of_mem _ hr))
    | some r => exact hl r (List.mem_cons_self _ _)

/-- Counterexample to C3: the input together reaches try_parse_parallel,
whose result is a success that simultaneously flags needs_llm — two active
branches at once. -/
theorem C3_counterexample :
    (parse_command (str "together") {} [] []).success = true ∧
    (parse_command (str "together") {} [] []).needs_llm = true := by
  decide

/-- C3 amended: every ParseResult produced by parse_command has exactly one
active branch, except the parallel recognizer's complex-parallel result
(a success that also flags needs_llm) and the could-not-parse fallback (an
error that also flags needs_llm). -/
theorem C3_amended (input : Str) (config : RobotConfig)
    (motor_names routine_names : List Str) :
    exactlyOneBranch (parse_command input config motor_names routine_names) ∨
    ((parse_command input config motor_names routine_names).success = true ∧
      (parse_command input config motor_names routine_names).needs_llm = true ∧
      (parse_command input config motor_names routine_names).command_type =
        some (str "parallel")) ∨
    parse_command input config motor_names routine_names = fallbackResult := by
  unfold parse_command
  simp only [parseCommandAux]
  split
  · left
    simp [exactlyOneBranch]
  · have key := firstResult_prop (fun r =>
      exactlyOneBranch r ∨
      (r.success = true ∧ r.needs_llm = true ∧
        r.command_type = some (str "parallel")) ∨
      r = fallbackResult)
    apply key
    · right; right; rfl
    · intro r hr
      simp only [List.mem_cons, List.not_mem_nil, or_false] at hr
      rcases hr with h|h|h|h|h|h|h|h|h|h|h|h|h
      · exact Or.inl (try_parse_routine_call_branch _ _ _ _ h.symm)
      · exact Or.inl (try_parse_multitask_branch _ _ _ _ h.symm)
      · exact Or.inl (try_parse_repeat_branch _ _ _ _ h.symm)
      · exact Or.inl (try_parse_sensor_wait_branch _ _ h.symm)
      · exact Or.inl (try_parse_line_follow_branch _ _ h.symm)
      · exact Or.inr (Or.inl (try_parse_parallel_branch _ _ _ h.symm))
      · exact Or.inl (try_parse_stop_branch _ _ _ h.symm)
      · exact Or.inl (try_parse_set_speed_branch _ _ h.symm)
      · exact Or.inl (try_parse_motor_branch _ _ _ _ h.symm)
      · exact Or.inl (try_parse_precise_turn_branch _ _ _ h.symm)
      · exact Or.inl (try_parse_turn_branch _ _ _ h.symm)
      · exact Or.inl (try_parse_move_branch _ _ _ h.symm)
      · exact Or.inl (try_parse_wait_branch _ _ h.symm)

/-! ### C9: termination of parse_command -/

theorem pyStrip_length_le (s : Str) : (pyStrip s).length ≤ s.length := by
  unfold pyStrip
  rw [List.length_reverse]
  calc (((s.dropWhile Char.isWhitespace).reverse.dropWhile Char.isWhitespace)).length
      ≤ (s.dropWhile Char.isWhitespace).reverse.length :=
        (List.dropWhile_sublist _).length_le
    _ = (s.dropWhile Char.isWhitespace).length := List.length_reverse _
    _ ≤ s.length := (List.dropWhile_sublist _).length_le

theorem pyLower_length (s : Str) : (pyLower s).length = s.length :=
  List.length_map s Char.toLower

theorem findSeqIdx_le (sep : Str) :
    ∀ (s : Str) (i : Nat), findSeqIdx sep s = some i → i + sep.length ≤ s.length := by
  intro s
  induction s with
  | nil =>
    intro i h
    unfold findSeqIdx at h
    split at h
    · rename_i hsep
      simp only [Option.some.injEq] at h
      subst h
      simp [hsep]
    · exact Option.noConfusion h
  | cons c cs ih =>
    intro i h
    unfold findSeqIdx at h
    split at h
    · rename_i hpre
      simp only [Option.some.injEq] at h
      subst h
      have := (List.isPrefixOf_iff_prefix.mp hpre).length_le
      simpa using this
    · rw [Option.map_eq_some'] at h
      obtain ⟨j, hj, rfl⟩ := h
      have := ih j hj
      simp only [List.length_cons]
      omega

theorem splitSeqAux_length_le (sep : Str) :
    ∀ (fuel : Nat) (s p : Str), p ∈ splitSeqAux sep fuel s → p.length ≤ s.length := by
  intro fuel
  induction fuel with
  | zero =>
    intro s p hp
    simp only [splitSeqAux, List.mem_singleton] at hp
    subst hp
    exact le_refl _
  | succ n ih =>
    intro s p hp
    unfold splitSeqAux at hp
    split at hp
    · simp only [List.mem_singleton] at hp
      subst hp
      exact le_refl _
    · rename_i i hi
      rcases List.mem_cons.mp hp with h1 | h1
      · subst h1
        rw [List.length_take]
        omega
      · have := ih _ _ h1
        have hd : (s.drop (i + sep.length)).length = s.length - (i + sep.length) :=
          List.length_drop _ _
        omega

theorem splitOnSeq_two_lt (sep s p0 p1 : Str) (hsep : sep ≠ [])
    (h : splitOnSeq sep s = [p0, p1]) :
    p0.length < s.length ∧ p1.length < s.length := by
  have hsl : 0 < sep.length := List.length_pos.mpr hsep
  unfold splitOnSeq at h
  rw [if_neg hsep] at h
  rcases hfuel : s.length with _ | n
  · rw [hfuel] at h
    simp [splitSeqAux] at h
  · rw [hfuel] at h
    unfold splitSeqAux at h
    split at h
    · simp at h
    · rename_i i hi
      have hb := findSeqIdx_le sep s i hi
      simp only [List.cons.injEq] at h
      obtain ⟨h0, h1⟩ := h
      constructor
      · subst h0
        rw [List.length_take]
        omega
      · have hp1 : p1 ∈ splitSeqAux sep n (s.drop (i + sep.length)) := by
          rw [h1]
          simp
        have := splitSeqAux_length_le sep n _ _ hp1
        have hd : (s.drop (i + sep.length)).length = s.length - (i + sep.length) :=
          List.length_drop _ _
        omega

theorem splitOnSeq1_two_lt (sep s p0 p1 : Str) (hsep : sep ≠ [])
    (h : splitOnSeq1 sep s = [p0, p1]) :
    p0.length < s.length ∧ p1.length < s.length := by
  have hsl : 0 < sep.length := List.length_pos.mpr hsep
  unfold splitOnSeq1 at h
  split at h
  · simp at h
  · rename_i i hi
    have hb := findSeqIdx_le sep s i hi
    simp only [List.cons.injEq] at h
    obtain ⟨h0, h1, -⟩ := h
    subst h0
    subst h1
    rw [List.length_take, List.length_drop]
    omega

theorem replaceSeqAux_length_le (sep : Str) :
    ∀ (fuel : Nat) (s : Str), (replaceSeqAux sep [] fuel s).length ≤ s.length := by
  intro fuel
  induction fuel with
  | zero => intro s; simp [replaceSeqAux]
  | succ n ih =>
    intro s
    unfold replaceSeqAux
    split
    · exact le_refl _
    · rename_i i hi
      have hb := findSeqIdx_le sep s i hi
      have := ih (s.drop (i + sep.length))
      have hd : (s.drop (i + sep.length)).length = s.length - (i + sep.length) :=
        List.length_drop _ _
      simp only [List.length_append, List.length_take, List.length_nil]
      omega

theorem replaceSeq_empty_lt (sep s : Str) (hsep : sep ≠ [])
    (hc : containsSeq sep s = true) :
    (replaceSeq sep [] s).length < s.length := by
  have hsl : 0 < sep.length := List.length_pos.mpr hsep
  unfold containsSeq at hc
  rw [Option.isSome_iff_exists] at hc
  obtain ⟨i, hi⟩ := hc
  have hb := findSeqIdx_le sep s i hi
  unfold replaceSeq
  rw [if_neg hsep]
  rcases hfuel : s.length with _ | n
  · omega
  · unfold replaceSeqAux
    rw [hi]
    have := replaceSeqAux_length_le sep n (s.drop (i + sep.length))
    have hd : (s.drop (i + sep.length)).length = s.length - (i + sep.length) :=
      List.length_drop _ _
    simp only [List.length_append, List.length_take, List.length_nil]
    omega

theorem repeatActionStr_cases (input : Str) :
    repeatActionStr input = [] ∨ (repeatActionStr input).length < input.length := by
  have hlow : (pyLower input).length = input.length := pyLower_length input
  unfold repeatActionStr
  cases h1 : findSeqIdx (str "times:") (pyLower input) with
  | some i =>
    right
    show (pyStrip (input.drop (i + 6))).length < input.length
    have hb := findSeqIdx_le _ _ _ h1
    have h6 : (str "times:").length = 6 := rfl
    have hstrip := pyStrip_length_le (input.drop (i + 6))
    have hd : (input.drop (i + 6)).length = input.length - (i + 6) :=
      List.length_drop _ _
    omega
  | none =>
    cases h2 : findSeqIdx (str "times :") (pyLower input) with
    | some i =>
      right
      show (pyStrip (input.drop (i + 7))).length < input.length
      have hb := findSeqIdx_le _ _ _ h2
      have h7 : (str "times :").length = 7 := rfl
      have hstrip := pyStrip_length_le (input.drop (i + 7))
      have hd : (input.drop (i + 7)).length = input.length - (i + 7) :=
        List.length_drop _ _
      omega
    | none =>
      cases h3 : findSeqIdx (str ": ") input with
      | some i =>
        right
        show (pyStrip (input.drop (i + 2))).length < input.length
        have hb := findSeqIdx_le _ _ _ h3
        have h2l : (str ": ").length = 2 := rfl
        have hstrip := pyStrip_length_le (input.drop (i + 2))
        have hd : (input.drop (i + 2)).length = input.length - (i + 2) :=
          List.length_drop _ _
        omega
      | none =>
        cases h4 : findSeqIdx (str ":") input with
        | some i =>
          right
          show (pyStrip (input.drop (i + 1))).length < input.length
          have hb := findSeqIdx_le _ _ _ h4
          have h1l : (str ":").length = 1 := rfl
          have hstrip := pyStrip_length_le (input.drop (i + 1))
          have hd : (input.drop (i + 1)).length = input.length - (i + 1) :=
            List.length_drop _ _
          omega
        | none =>
          left
          rfl

theorem multitaskSplit_lt (iL t1 t2 : Str) (h : multitaskSplit iL = (t1, t2))
    (h1 : t1 ≠ []) (h2 : t2 ≠ []) :
    t1.length < iL.length ∧ t2.length < iL.length := by
  simp only [multitaskSplit] at h
  split at h
  · -- while branch
    split at h
    · rename_i p0 p1 heq
      obtain ⟨l0, l1⟩ := splitOnSeq_two_lt _ _ _ _ (by decide) heq
      have s0 := pyStrip_length_le p0
      have s1 := pyStrip_length_le p1
      simp only [Prod.mk.injEq] at h
      obtain ⟨e1, e2⟩ := h
      subst e1
      subst e2
      omega
    · simp only [Prod.mk.injEq] at h
      exact absurd h.1.symm h1
  · split at h
    · -- simultaneously branch
      rename_i _ hsim
      split at h
      · rename_i hand
        have hrest : (pyStrip (replaceSeq (str "simultaneously") [] iL)).length <
            iL.length :=
          lt_of_le_of_lt (pyStrip_length_le _)
            (replaceSeq_empty_lt _ _ (by decide) hsim)
        split at h
        · rename_i p0 p1 heq
          obtain ⟨l0, l1⟩ := splitOnSeq1_two_lt _ _ _ _ (by decide) heq
          have s0 := pyStrip_length_le p0
          have s1 := pyStrip_length_le p1
          simp only [Prod.mk.injEq] at h
          obtain ⟨e1, e2⟩ := h
          subst e1
          subst e2
          omega
        · simp only [Prod.mk.injEq] at h
          exact absurd h.1.symm h1
      · simp only [Prod.mk.injEq] at h
        exact absurd h.1.symm h1
    · split at h
      · -- at the same time branch
        rename_i hast
        split at h
        · rename_i hand
          have hrest : (pyStrip (replaceSeq (str "at the same time") [] iL)).length <
              iL.length :=
            lt_of_le_of_lt (pyStrip_length_le _)
              (replaceSeq_empty_lt _ _ (by decide) hast)
          split at h
          · rename_i p0 p1 heq
            obtain ⟨l0, l1⟩ := splitOnSeq1_two_lt _ _ _ _ (by decide) heq
            have s0 := pyStrip_length_le p0
            have s1 := pyStrip_length_le p1
            simp only [Prod.mk.injEq] at h
            obtain ⟨e1, e2⟩ := h
            subst e1
            subst e2
            omega
          · simp only [Prod.mk.injEq] at h
            exact absurd h.1.symm h1
        · simp only [Prod.mk.injEq] at h
          exact absurd h.1.symm h1
      · split at h
        · -- parallel-and branch
          split at h
          · rename_i p0 p1 heq
            obtain ⟨l0, l1⟩ := splitOnSeq1_two_lt _ _ _ _ (by decide) heq
            have s0 := pyStrip_length_le p0
            have s1 := pyStrip_length_le p1
            simp only [Prod.mk.injEq] at h
            obtain ⟨e1, e2⟩ := h
            subst e1
            subst e2
            omega
          · rename_i p0 heq
            simp only [Prod.mk.injEq] at h
            exact absurd h.2.symm h2
          · simp only [Prod.mk.injEq] at h
            exact absurd h.1.symm h1
        · simp only [Prod.mk.injEq] at h
          exact absurd h.1.symm h1

theorem multitaskTasks_lt (input t1 t2 : Str)
    (h : multitaskTasks input = some (t1, t2)) :
    t1.length < input.length ∧ t2.length < input.length := by
  simp only [multitaskTasks] at h
  split at h
  · exact Option.noConfusion h
  · split at h
    · exact Option.noConfusion h
    · rename_i hne
      simp only [Option.some.injEq] at h
      rw [not_or] at hne
      have hlow := pyLower_length input
      have := multitaskSplit_lt (pyLower input) t1 t2 (by rw [h])
        (by
          intro hc
          exact hne.1 (by rw [h]; exact hc))
        (by
          intro hc
          exact hne.2 (by rw [h]; exact hc))
      omega

theorem try_parse_repeat_congr (r1 r2 : Str → ParseResult) (tokens : List Token)
    (input : Str)
    (h : repeatActionStr input ≠ [] →
      r1 (repeatActionStr input) = r2 (repeatActionStr input)) :
    try_parse_repeat r1 tokens input = try_parse_repeat r2 tokens input := by
  by_cases hact : repeatActionStr input = []
  · simp [try_parse_repeat, hact]
  · simp only [try_parse_repeat, h hact]

theorem try_parse_multitask_congr (r1 r2 : Str → ParseResult)
    (tokens : List Token) (input : Str)
    (h : ∀ t1 t2, multitaskTasks input = some (t1, t2) →
      r1 t1 = r2 t1 ∧ r1 t2 = r2 t2) :
    try_parse_multitask r1 tokens input = try_parse_multitask r2 tokens input := by
  unfold try_parse_multitask
  cases hmt : multitaskTasks input with
  | none => rfl
  | some td =>
    obtain ⟨t1, t2⟩ := td
    obtain ⟨e1, e2⟩ := h t1 t2 hmt
    simp only [e1, e2]

theorem parseAux_fuel : ∀ (n f1 f2 : Nat) (input : Str) (config : RobotConfig)
    (motor_names routine_names : List Str),
    input.length ≤ n → input.length < f1 → input.length < f2 →
    parseCommandAux f1 input config motor_names routine_names =
    parseCommandAux f2 input config motor_names routine_names := by
  intro n
  induction n with
  | zero =>
    intro f1 f2 input config motor_names routine_names hn h1 h2
    obtain ⟨a, rfl⟩ : ∃ a, f1 = a + 1 := ⟨f1 - 1, by omega⟩
    obtain ⟨b, rfl⟩ : ∃ b, f2 = b + 1 := ⟨f2 - 1, by omega⟩
    have : input = [] := List.length_eq_zero.mp (by omega)
    subst this
    rfl
  | succ n ih =>
    intro f1 f2 input config motor_names routine_names hn h1 h2
    obtain ⟨a, rfl⟩ : ∃ a, f1 = a + 1 := ⟨f1 - 1, by omega⟩
    obtain ⟨b, rfl⟩ : ∃ b, f2 = b + 1 := ⟨f2 - 1, by omega⟩
    have hmt : try_parse_multitask
        (fun s2 => parseCommandAux a s2 config motor_names []) (tokenize input) input =
        try_parse_multitask
        (fun s2 => parseCommandAux b s2 config motor_names []) (tokenize input) input := by
      apply try_parse_multitask_congr
      intro t1 t2 hts
      obtain ⟨l1, l2⟩ := multitaskTasks_lt input t1 t2 hts
      exact ⟨ih a b t1 config motor_names [] (by omega) (by omega) (by omega),
        ih a b t2 config motor_names [] (by omega) (by omega) (by omega)⟩
    have hrp : try_parse_repeat
        (fun s2 => parseCommandAux a s2 {} [] []) (tokenize input) input =
        try_parse_repeat
        (fun s2 => parseCommandAux b s2 {} [] []) (tokenize input) input := by
      apply try_parse_repeat_congr
      intro hact
      rcases repeatActionStr_cases input with hre | hre
      · exact absurd hre hact
      · exact ih a b (repeatActionStr input) {} [] [] (by omega) (by omega) (by omega)
    simp only [parseCommandAux]
    rw [hmt, hrp]

/-- Counterexample to C9: the nested input repeats two levels deep — the
sub-parse performed by the repeat recognizer itself performs a sub-parse, so
the recursion is not capped at one level. -/
theorem C9_counterexample :
    parseDepth (str "repeat 2 times: repeat 2 times: stop") = 2 := by
  decide

/-- C9 amended: parse_command terminates on every input because each
recursive sub-parse (repeat loop body, multitask sub-phrases, both invoked
with the known-routine list emptied) runs on a strictly shorter string; the
recursion depth is bounded by the input length, not by a one-level cap.
Formally, any fuel exceeding the input length computes the stable result of
parse_command. -/
theorem C9_amended (f : Nat) (input : Str) (config : RobotConfig)
    (motor_names routine_names : List Str) (h : input.length < f) :
    parseCommandAux f input config motor_names routine_names =
    parse_command input config motor_names routine_names :=
  parseAux_fuel input.length f (input.length + 1) input config motor_names
    routine_names (le_refl _) h (by omega)

/-- Witness for the amended C9 at a concrete input and fuel. -/
theorem C9_amended_witness :
    parseCommandAux 42 (str "stop") {} [] [] = parse_command (str "stop") {} [] [] :=
  C9_amended 42 (str "stop") {} [] [] (by decide)

/-! ### Lemmas about the preview geometry -/

theorem normalize_angle_sub (x : ℝ) :
    normalize_angle x = x - 360 * ⌊x / 360⌋ := by
  have h0 : (0:ℝ) ≤ x - 360 * ⌊x / 360⌋ := by
    have := Int.floor_le (x / 360)
    nlinarith
  simp only [normalize_angle]
  rw [if_neg (not_lt.mpr h0)]

theorem normalize_angle_nonneg (x : ℝ) : 0 ≤ normalize_angle x := by
  rw [normalize_angle_sub]
  have := Int.floor_le (x / 360)
  nlinarith

theorem normalize_angle_lt_360 (x : ℝ) : normalize_angle x < 360 := by
  rw [normalize_angle_sub]
  have := Int.lt_floor_add_one (x / 360)
  nlinarith

theorem normalize_angle_eq_self (x : ℝ) (h0 : 0 ≤ x) (h1 : x < 360) :
    normalize_angle x = x := by
  rw [normalize_angle_sub]
  have hf : ⌊x / 360⌋ = 0 := by
    rw [Int.floor_eq_zero_iff]
    constructor
    · positivity
    · rw [div_lt_one (by norm_num : (0:ℝ) < 360)]
      exact h1
  rw [hf]
  push_cast
  ring

theorem normalize_angle_add_360 (x : ℝ) :
    normalize_angle (x + 360) = normalize_angle x := by
  rw [normalize_angle_sub, normalize_angle_sub]
  rw [show (x + 360) / 360 = x / 360 + (1:ℤ) by push_cast; ring, Int.floor_add_int]
  push_cast
  ring

theorem normalize_angle_sub_360 (x : ℝ) :
    normalize_angle (x - 360) = normalize_angle x := by
  rw [normalize_angle_sub, normalize_angle_sub]
  rw [show (x - 360) / 360 = x / 360 - (1:ℤ) by push_cast; ring, Int.floor_sub_int]
  push_cast
  ring

theorem wrapDiff_cases (s e : ℝ) :
    wrapDiff s e = e - s ∨ wrapDiff s e = e - s - 360 ∨
    wrapDiff s e = e - s + 360 := by
  simp only [wrapDiff]
  split_ifs <;>
    first
      | (left; ring1)
      | (right; left; ring1)
      | (right; right; ring1)

theorem wrapDiff_bounds (s e : ℝ) (hs0 : 0 ≤ s) (hs1 : s < 360)
    (he0 : 0 ≤ e) (he1 : e < 360) :
    -180 ≤ wrapDiff s e ∧ wrapDiff s e ≤ 180 := by
  simp only [wrapDiff]
  split_ifs <;> constructor <;> linarith

theorem interpolate_angle_one (s e : ℝ) :
    interpolate_angle s e 1 = normalize_angle e := by
  rcases wrapDiff_cases s e with h | h | h
  · simp only [interpolate_angle, h]
    rw [show s + (e - s) * 1 = e by ring]
  · simp only [interpolate_angle, h]
    rw [show s + (e - s - 360) * 1 = e - 360 by ring, normalize_angle_sub_360]
  · simp only [interpolate_angle, h]
    rw [show s + (e - s + 360) * 1 = e + 360 by ring, normalize_angle_add_360]

theorem scanSegments_skip (pre rest : List PreviewSegment) (t : ℝ)
    (h : ∀ s ∈ pre,
      ¬ (s.start_point.timestamp ≤ t ∧ t ≤ s.end_point.timestamp)) :
    scanSegments (pre ++ rest) t = scanSegments rest t := by
  induction pre with
  | nil => rfl
  | cons a l ih =>
    simp only [List.cons_append, scanSegments]
    rw [if_neg (h a (by simp))]
    exact ih (fun s hs => h s (by simp [hs]))

theorem scanSegments_none (segs : List PreviewSegment) (t : ℝ)
    (h : ∀ s ∈ segs,
      ¬ (s.start_point.timestamp ≤ t ∧ t ≤ s.end_point.timestamp)) :
    scanSegments segs t = none := by
  have h2 := scanSegments_skip segs [] t h
  simpa using h2

theorem segOK_straight (p : PreviewPoint) (d speed : ℝ) (c : Cmd) :
    segOK (calculate_straight_segment p d speed c) := by
  refine ⟨?_, fun _ => rfl,
    fun ht => absurd (by simpa only [calculate_straight_segment] using ht)
      (by decide : ¬ str "straight" = str "turn"),
    fun ht => absurd (by simpa only [calculate_straight_segment] using ht)
      (by decide : ¬ str "straight" = str "wait")⟩
  simp only [calculate_straight_segment]
  have hsp : (0:ℝ) < if speed > 0 then speed else 1 := by
    split_ifs with h
    · exact h
    · norm_num
  have h1 : 0 ≤ |d| / (if speed > 0 then speed else 1) * 1000 :=
    mul_nonneg (div_nonneg (abs_nonneg d) hsp.le) (by norm_num)
  linarith

theorem segOK_turn (p : PreviewPoint) (a turn_rate : ℝ) (c : Cmd) :
    segOK (calculate_turn_segment p a turn_rate c) := by
  refine ⟨?_,
    fun ht => absurd (by simpa only [calculate_turn_segment] using ht)
      (by decide : ¬ str "turn" = str "straight"),
    fun _ => ⟨rfl, rfl⟩,
    fun ht => absurd (by simpa only [calculate_turn_segment] using ht)
      (by decide : ¬ str "turn" = str "wait")⟩
  simp only [calculate_turn_segment]
  have hsp : (0:ℝ) < if turn_rate > 0 then turn_rate else 1 := by
    split_ifs with h
    · exact h
    · norm_num
  have h1 : 0 ≤ |a| / (if turn_rate > 0 then turn_rate else 1) * 1000 :=
    mul_nonneg (div_nonneg (abs_nonneg a) hsp.le) (by norm_num)
  linarith

theorem segOK_wait (p : PreviewPoint) (d : ℝ) (hd : 0 ≤ d) (c : Cmd) :
    segOK (calculate_wait_segment p d c) := by
  refine ⟨?_,
    fun ht => absurd (by simpa only [calculate_wait_segment] using ht)
      (by decide : ¬ str "wait" = str "straight"),
    fun ht => absurd (by simpa only [calculate_wait_segment] using ht)
      (by decide : ¬ str "wait" = str "turn"),
    fun _ => ⟨rfl, rfl, rfl⟩⟩
  simp only [calculate_wait_segment]
  linarith

theorem calcPathStep_inv_some (speed turn_rate : ℝ)
    (acc : List PreviewSegment × PreviewPoint × ℝ) (command : Cmd)
    (segment : PreviewSegment)
    (hp : parse_command_to_segment command acc.2.1 speed turn_rate = some segment)
    (hsOK : segOK segment) (h : pathAccInv acc) :
    pathAccInv (calcPathStep speed turn_rate acc command) := by
  obtain ⟨hall, hchain, hlast, hnil, hhead⟩ := h
  have hdur0 : 0 ≤ segment.end_point.timestamp - segment.start_point.timestamp :=
    sub_nonneg.mpr hsOK.1
  simp only [calcPathStep, hp]
  refine ⟨?_, ?_, ?_, ?_, ?_⟩
  · intro sgg hs
    rcases List.mem_append.mp hs with hs | hs
    · exact hall sgg hs
    · rw [List.mem_singleton] at hs
      rw [hs]
      exact ⟨le_add_of_nonneg_right hdur0, hsOK.2.1, hsOK.2.2.1, hsOK.2.2.2⟩
  · rw [List.chain'_append]
    refine ⟨hchain, List.chain'_singleton _, ?_⟩
    intro x hx y hy
    simp only [List.head?_cons, Option.mem_def, Option.some.injEq] at hy
    rw [← hy]
    exact (hlast x (Option.mem_def.mp hx)).symm
  · intro s hs
    rw [List.getLast?_concat] at hs
    rw [← Option.some.inj hs]
  · intro hcontra
    exact absurd hcontra (by simp)
  · intro s hs
    cases hacc : acc.1 with
    | nil =>
      rw [hacc] at hs
      simp only [List.nil_append, List.head?_cons, Option.some.injEq] at hs
      rw [← hs]
      exact hnil hacc
    | cons a l =>
      rw [hacc] at hs
      simp only [List.cons_append, List.head?_cons, Option.some.injEq] at hs
      rw [← hs]
      exact hhead a (by rw [hacc]; rfl)

theorem calcPathStep_inv (speed turn_rate : ℝ)
    (acc : List PreviewSegment × PreviewPoint × ℝ) (c : Cmd)
    (h : pathAccInv acc) : pathAccInv (calcPathStep speed turn_rate acc c) := by
  cases c with
  | straight d =>
    exact calcPathStep_inv_some speed turn_rate acc _ _ rfl
      (segOK_straight acc.2.1 d speed _) h
  | turn a =>
    exact calcPathStep_inv_some speed turn_rate acc _ _ rfl
      (segOK_turn acc.2.1 a turn_rate _) h
  | wait d hd =>
    exact calcPathStep_inv_some speed turn_rate acc _ _ rfl
      (segOK_wait acc.2.1 d hd _) h
  | other =>
    simpa only [calcPathStep, parse_command_to_segment] using h

theorem foldl_pathAccInv (speed turn_rate : ℝ) (commands : List Cmd) :
    ∀ acc : List PreviewSegment × PreviewPoint × ℝ,
    pathAccInv acc →
    pathAccInv (commands.foldl (calcPathStep speed turn_rate) acc) := by
  induction commands with
  | nil =>
    intro acc h
    exact h
  | cons c cs ih =>
    intro acc h
    exact ih _ (calcPathStep_inv speed turn_rate acc c h)

/-- C6: every segment produced by calculate_path has a nonnegative duration;
a straight segment keeps its angle, a turn keeps x and y, a wait keeps x, y
and angle; consecutive segments chain end-timestamp to start-timestamp (so
timestamps are monotonically non-decreasing), the first segment starts at
time 0 and the last segment ends at the path's total_time (durations compose
additively onto the running total). -/
theorem C6_segment_invariants (commands : List Cmd)
    (start_position : PreviewPoint) (speed turn_rate : ℝ) :
    (∀ seg ∈ (calculate_path commands start_position speed turn_rate).segments,
      seg.start_point.timestamp ≤ seg.end_point.timestamp ∧
      (seg.type = str "straight" → seg.end_point.angle = seg.start_point.angle) ∧
      (seg.type = str "turn" → seg.end_point.x = seg.start_point.x ∧
        seg.end_point.y = seg.start_point.y) ∧
      (seg.type = str "wait" → seg.end_point.x = seg.start_point.x ∧
        seg.end_point.y = seg.start_point.y ∧
        seg.end_point.angle = seg.start_point.angle)) ∧
    List.Chain' (fun a b => b.start_point.timestamp = a.end_point.timestamp)
      (calculate_path commands start_position speed turn_rate).segments ∧
    (∀ s, (calculate_path commands start_position speed turn_rate).segments.head? =
      some s → s.start_point.timestamp = 0) ∧
    (∀ s, (calculate_path commands start_position speed turn_rate).segments.getLast? =
      some s → s.end_point.timestamp =
        (calculate_path commands start_position speed turn_rate).total_time) := by
  have h0 : pathAccInv ([],
      PreviewPoint.mk start_position.x start_position.y start_position.angle
        start_position.timestamp, (0:ℝ)) :=
    ⟨by simp, List.chain'_nil, by simp, fun _ => rfl, by simp⟩
  have h := foldl_pathAccInv speed turn_rate commands _ h0
  obtain ⟨hall, hchain, hlast, hnil, hhead⟩ := h
  exact ⟨hall, hchain, hhead, hlast⟩

/-- Witness for C6 at a concrete command list: a wait then a turn from a
concrete start point, with the chain invariant and the first-segment
instance of the per-segment invariant extracted. -/
theorem C6_segment_invariants_witness :
    List.Chain' (fun a b => b.start_point.timestamp = a.end_point.timestamp)
      (calculate_path [Cmd.wait 100 (by norm_num), Cmd.turn 90]
        { x := 0, y := 0, angle := 50, timestamp := 0 } 200 150).segments ∧
    (∀ s, (calculate_path [Cmd.wait 100 (by norm_num), Cmd.turn 90]
      { x := 0, y := 0, angle := 50, timestamp := 0 } 200 150).segments.head? =
        some s → s.start_point.timestamp = 0) :=
  ⟨(C6_segment_invariants [Cmd.wait 100 (by norm_num), Cmd.turn 90]
      { x := 0, y := 0, angle := 50, timestamp := 0 } 200 150).2.1,
   (C6_segment_invariants [Cmd.wait 100 (by norm_num), Cmd.turn 90]
      { x := 0, y := 0, angle := 50, timestamp := 0 } 200 150).2.2.1⟩

/-- Counterexample to C5: the angular difference is wrapped into the closed
interval [-180, 180], not (-180, 180]: for start 180 and end 0 the wrapped
difference is -180 (outside (-180, 180]), and halfway interpolation gives 90
(the value 270 would result from wrapping to +180 as the claim states). -/
theorem C5_counterexample :
    wrapDiff 180 0 = -180 ∧ ¬ (-180 < wrapDiff 180 0) ∧
    interpolate_angle 180 0 (1 / 2) = 90 := by
  have hw : wrapDiff 180 0 = -180 := by
    simp only [wrapDiff]
    norm_num
  refine ⟨hw, by rw [hw]; exact lt_irrefl (-180), ?_⟩
  simp only [interpolate_angle, hw]
  rw [show (180:ℝ) + -180 * (1 / 2) = 90 by norm_num]
  exact normalize_angle_eq_self 90 (by norm_num) (by norm_num)

/-- C5 amended: get_position_at_time returns the zero point on an empty
path; returns the path's end position when no segment's timestamp interval
contains the query; on the first containing segment (with positive
duration, so that no clamping occurs) it linearly interpolates x and y by
progress and interpolates the angle via interpolate_angle; the angular
difference is wrapped into the closed interval [-180, 180] (for start and
end angles normalized to [0, 360)) before scaling by progress, and the
result is re-normalized into [0, 360). -/
theorem C5_amended :
    (∀ (path : CalculatedPreviewPath) (t : ℝ), path.segments = [] →
      get_position_at_time path t =
        { x := 0, y := 0, angle := 0, timestamp := 0 }) ∧
    (∀ (path : CalculatedPreviewPath) (t : ℝ), path.segments ≠ [] →
      (∀ s ∈ path.segments,
        ¬ (s.start_point.timestamp ≤ t ∧ t ≤ s.end_point.timestamp)) →
      get_position_at_time path t =
        { x := path.end_position.x, y := path.end_position.y,
          angle := path.end_position.angle,
          timestamp := path.end_position.timestamp }) ∧
    (∀ (path : CalculatedPreviewPath) (t : ℝ) (pre : List PreviewSegment)
        (seg : PreviewSegment) (post : List PreviewSegment),
      path.segments = pre ++ seg :: post →
      (∀ s ∈ pre,
        ¬ (s.start_point.timestamp ≤ t ∧ t ≤ s.end_point.timestamp)) →
      seg.start_point.timestamp ≤ t → t ≤ seg.end_point.timestamp →
      seg.start_point.timestamp < seg.end_point.timestamp →
      get_position_at_time path t =
        { x := seg.start_point.x + (seg.end_point.x - seg.start_point.x) *
            ((t - seg.start_point.timestamp) /
              (seg.end_point.timestamp - seg.start_point.timestamp)),
          y := seg.start_point.y + (seg.end_point.y - seg.start_point.y) *
            ((t - seg.start_point.timestamp) /
              (seg.end_point.timestamp - seg.start_point.timestamp)),
          angle := interpolate_angle seg.start_point.angle seg.end_point.angle
            ((t - seg.start_point.timestamp) /
              (seg.end_point.timestamp - seg.start_point.timestamp)),
          timestamp := t }) ∧
    (∀ s e : ℝ, 0 ≤ s → s < 360 → 0 ≤ e → e < 360 →
      -180 ≤ wrapDiff s e ∧ wrapDiff s e ≤ 180) ∧
    (∀ s e p : ℝ,
      interpolate_angle s e p = normalize_angle (s + wrapDiff s e * p)) ∧
    (∀ x : ℝ, 0 ≤ normalize_angle x ∧ normalize_angle x < 360) := by
  refine ⟨?_, ?_, ?_,
    fun s e hs0 hs1 he0 he1 => wrapDiff_bounds s e hs0 hs1 he0 he1,
    fun s e p => rfl,
    fun x => ⟨normalize_angle_nonneg x, normalize_angle_lt_360 x⟩⟩
  · intro path t h
    simp [get_position_at_time, h]
  · intro path t hne h
    have hs := scanSegments_none path.segments t h
    simp only [get_position_at_time]
    rw [if_neg (fun hc => hne (List.length_eq_zero.mp hc)), hs]
  · intro path t pre seg post hseg hpre h1 h2 hlt
    have hne : ¬ path.segments.length = 0 := by
      rw [hseg]
      simp
    simp only [get_position_at_time]
    rw [if_neg hne, hseg, scanSegments_skip pre (seg :: post) t hpre]
    simp only [scanSegments]
    rw [if_pos ⟨h1, h2⟩]
    have hd : seg.end_point.timestamp - seg.start_point.timestamp ≠ 0 :=
      (sub_pos.mpr hlt).ne'
    rw [if_neg hd]
    have hp0 : 0 ≤ (t - seg.start_point.timestamp) /
        (seg.end_point.timestamp - seg.start_point.timestamp) :=
      div_nonneg (by linarith) (by linarith)
    have hp1 : (t - seg.start_point.timestamp) /
        (seg.end_point.timestamp - seg.start_point.timestamp) ≤ 1 :=
      (div_le_one (by linarith)).mpr (by linarith)
    rw [max_eq_left hp0, min_eq_left hp1]

/-- Witness for the amended C5: the empty path yields the zero point; a
concrete positive-duration segment containing the query interpolates
half-way; the wrap bound holds at concrete normalized angles. -/
theorem C5_amended_witness :
    get_position_at_time
      { segments := [], total_time := 0,
        end_position := { x := 7, y := 8, angle := 9, timestamp := 10 } } 5 =
      { x := 0, y := 0, angle := 0, timestamp := 0 } ∧
    (-180 ≤ wrapDiff 90 270 ∧ wrapDiff 90 270 ≤ 180) ∧
    get_position_at_time
      { segments :=
          [{ type := str "straight",
             start_point := { x := 0, y := 0, angle := 0, timestamp := 0 },
             end_point := { x := 10, y := 20, angle := 0, timestamp := 1000 },
             command := Cmd.other }],
        total_time := 1000,
        end_position := { x := 10, y := 20, angle := 0, timestamp := 1000 } }
      500 = { x := 5, y := 10, angle := 0, timestamp := 500 } := by
  refine ⟨C5_amended.1 _ 5 rfl,
    C5_amended.2.2.2.1 90 270 (by norm_num) (by norm_num) (by norm_num)
      (by norm_num), ?_⟩
  have h := C5_amended.2.2.1
    { segments :=
        [{ type := str "straight",
           start_point := { x := 0, y := 0, angle := 0, timestamp := 0 },
           end_point := { x := 10, y := 20, angle := 0, timestamp := 1000 },
           command := Cmd.other }],
      total_time := 1000,
      end_position := { x := 10, y := 20, angle := 0, timestamp := 1000 } }
    500 []
    { type := str "straight",
      start_point := { x := 0, y := 0, angle := 0, timestamp := 0 },
      end_point := { x := 10, y := 20, angle := 0, timestamp := 1000 },
      command := Cmd.other }
    [] rfl (by simp) (by norm_num) (by norm_num) (by norm_num)
  rw [h]
  have hw : wrapDiff 0 0 = 0 := by
    simp only [wrapDiff]
    norm_num
  have hi : interpolate_angle 0 0 (((500:ℝ) - 0) / (1000 - 0)) = 0 := by
    simp only [interpolate_angle, hw]
    rw [show (0:ℝ) + 0 * ((500 - 0) / (1000 - 0)) = 0 by norm_num]
    exact normalize_angle_eq_self 0 (by norm_num) (by norm_num)
  simp only [PreviewPoint.mk.injEq]
  refine ⟨by norm_num, by norm_num, ?_, trivial⟩
  exact hi

/-- Counterexample to C10: on a zero-duration segment the division is
indeed avoided (progress is 1), but the returned angle is
normalize_angle(end angle), not the segment's end angle itself: with end
angle 400 the result is 40. -/
theorem C10_counterexample :
    (get_position_at_time
      { segments :=
          [{ type := str "wait",
             start_point := { x := 1, y := 2, angle := 400, timestamp := 5 },
             end_point := { x := 3, y := 4, angle := 400, timestamp := 5 },
             command := Cmd.other }],
        total_time := 5,
        end_position := { x := 3, y := 4, angle := 400, timestamp := 5 } }
      5).angle = 40 ∧ (40:ℝ) ≠ 400 := by
  constructor
  · simp only [get_position_at_time]
    rw [if_neg (by simp)]
    simp only [scanSegments]
    rw [if_pos ⟨le_refl (5:ℝ), le_refl (5:ℝ)⟩]
    rw [if_pos (by norm_num : (5:ℝ) - 5 = 0)]
    rw [max_eq_left (by norm_num : (0:ℝ) ≤ 1), min_self]
    show interpolate_angle 400 400 1 = 40
    rw [interpolate_angle_one, normalize_angle_sub]
    have hf : ⌊(400:ℝ) / 360⌋ = 1 := by
      rw [Int.floor_eq_iff]
      constructor <;> norm_num
    rw [hf]
    norm_num
  · norm_num

/-- C10 amended: for a timestamp inside a zero-duration segment,
get_position_at_time does not divide by zero: it treats progress as 1 and
returns that segment's end x and y, the normalization of the segment's end
angle into [0, 360) (equal to the end angle itself whenever that angle
already lies in [0, 360)), and timestamp t. -/
theorem C10_amended (path : CalculatedPreviewPath) (t : ℝ)
    (pre : List PreviewSegment) (seg : PreviewSegment)
    (post : List PreviewSegment)
    (hseg : path.segments = pre ++ seg :: post)
    (hpre : ∀ s ∈ pre,
      ¬ (s.start_point.timestamp ≤ t ∧ t ≤ s.end_point.timestamp))
    (h1 : seg.start_point.timestamp ≤ t) (h2 : t ≤ seg.end_point.timestamp)
    (hzero : seg.start_point.timestamp = seg.end_point.timestamp) :
    get_position_at_time path t =
      { x := seg.end_point.x, y := seg.end_point.y,
        angle := normalize_angle seg.end_point.angle, timestamp := t } ∧
    (0 ≤ seg.end_point.angle → seg.end_point.angle < 360 →
      normalize_angle seg.end_point.angle = seg.end_point.angle) := by
  constructor
  · have hne : ¬ path.segments.length = 0 := by
      rw [hseg]
      simp
    simp only [get_position_at_time]
    rw [if_neg hne, hseg, scanSegments_skip pre (seg :: post) t hpre]
    simp only [scanSegments]
    rw [if_pos ⟨h1, h2⟩]
    rw [if_pos (by rw [hzero]; ring :
      seg.end_point.timestamp - seg.start_point.timestamp = 0)]
    rw [max_eq_left (by norm_num : (0:ℝ) ≤ 1), min_self]
    simp only [PreviewPoint.mk.injEq]
    refine ⟨by ring, by ring, interpolate_angle_one _ _, trivial⟩
  · exact fun ha hb => normalize_angle_eq_self _ ha hb

/-- Witness for the amended C10 on a concrete zero-duration segment whose
end angle already lies in [0, 360). -/
theorem C10_amended_witness :
    get_position_at_time
      { segments :=
          [{ type := str "wait",
             start_point := { x := 1, y := 2, angle := 30, timestamp := 5 },
             end_point := { x := 3, y := 4, angle := 30, timestamp := 5 },
             command := Cmd.other }],
        total_time := 5,
        end_position := { x := 3, y := 4, angle := 30, timestamp := 5 } }
      5 = { x := 3, y := 4, angle := 30, timestamp := 5 } := by
  have h := C10_amended
    { segments :=
        [{ type := str "wait",
           start_point := { x := 1, y := 2, angle := 30, timestamp := 5 },
           end_point := { x := 3, y := 4, angle := 30, timestamp := 5 },
           command := Cmd.other }],
      total_time := 5,
      end_position := { x := 3, y := 4, angle := 30, timestamp := 5 } }
    5 []
    { type := str "wait",
      start_point := { x := 1, y := 2, angle := 30, timestamp := 5 },
      end_point := { x := 3, y := 4, angle := 30, timestamp := 5 },
      command := Cmd.other }
    [] rfl (by simp) (by norm_num) (by norm_num) (by norm_num)
  rw [h.1, h.2 (by norm_num) (by norm_num)]

/-- C1: path integration for [straight 200, turn 90, wait 500] from
(100, 100, 0, 0) at speed 200 and turn rate 150: exactly 3 segments,
total_time 2100 (= 200/200*1000 + 90/150*1000 + 500), and end position
(100, 0, 90, 2100) — the straight displacement is projected along the
heading with the -90-degree offset convention and the 0.5 mm-to-pixel
scale. -/
theorem C1_path_integration :
    (calculate_path [Cmd.straight 200, Cmd.turn 90, Cmd.wait 500 (by norm_num)]
      { x := 100, y := 100, angle := 0, timestamp := 0 } 200 150).segments.length
      = 3 ∧
    (calculate_path [Cmd.straight 200, Cmd.turn 90, Cmd.wait 500 (by norm_num)]
      { x := 100, y := 100, angle := 0, timestamp := 0 } 200 150).total_time
      = 2100 ∧
    (calculate_path [Cmd.straight 200, Cmd.turn 90, Cmd.wait 500 (by norm_num)]
      { x := 100, y := 100, angle := 0, timestamp := 0 } 200 150).end_position
      = { x := 100, y := 0, angle := 90, timestamp := 2100 } := by
  have harg : ((0:ℝ) - 90) * (Real.pi / 180) = -(Real.pi / 2) := by
    ring
  have hc : Real.cos (((0:ℝ) - 90) * (Real.pi / 180)) = 0 := by
    rw [harg, Real.cos_neg, Real.cos_pi_div_two]
  have hs : Real.sin (((0:ℝ) - 90) * (Real.pi / 180)) = -1 := by
    rw [harg, Real.sin_neg, Real.sin_pi_div_two]
  have hn : normalize_angle ((0:ℝ) + 90) = 90 := by
    rw [show ((0:ℝ) + 90) = 90 by norm_num]
    exact normalize_angle_eq_self 90 (by norm_num) (by norm_num)
  have h200 : ((200:ℝ) > 0) := by norm_num
  have h150 : ((150:ℝ) > 0) := by norm_num
  have ha200 : |(200:ℝ)| = 200 := abs_of_pos (by norm_num)
  have ha90 : |(90:ℝ)| = 90 := abs_of_pos (by norm_num)
  refine ⟨?_, ?_, ?_⟩ <;>
    · simp only [calculate_path, List.foldl, calcPathStep,
        parse_command_to_segment, calculate_straight_segment,
        calculate_turn_segment, calculate_wait_segment, SCALE_MM_TO_PX]
      simp only [hc, hs, hn, if_pos h200, if_pos h150, ha200, ha90]
      norm_num

end DragonBricks
